import Mathlib

/-!
Shallow embedding of the HStream Stremio addon (src/addon.js, with the earlier
variant in src/unnamed/part_000) for checking its natural-language specification.

The embedding models:
* the expiring `Cache` class (get / set with lazy eviction),
* `fetchCatalog`'s batch-pagination loop over a page-fetch oracle,
* `fetchPage`'s navigation retry loop,
* the meta/stream handlers' sequential lookup-by-identity fallback loop,
* `fetchVideoDetails`'s request interception, DOM source merging, subtitle
  extraction, HTTPS filtering, quality sorting and result caching.

Browser I/O (navigation outcomes, DOM contents, intercepted request URLs) is
supplied through explicit oracle arguments; everything else is translated
directly from the JavaScript source.  JavaScript `Map` objects are modelled as
association lists with `Map.set` semantics (overwrite in place, insert at the
end), which preserves both key lookup and the insertion order that
`Array.from(map.values())` exposes.
-/

namespace HStream

instance {ε α : Type} [DecidableEq ε] [DecidableEq α] :
    DecidableEq (Except ε α) := fun a b =>
  match a, b with
  | .error e, .error f => decidable_of_iff (e = f) (by simp)
  | .ok x, .ok y => decidable_of_iff (x = y) (by simp)
  | .error _, .ok _ => isFalse (by simp)
  | .ok _, .error _ => isFalse (by simp)

/-- Char-list prefix test (kernel-computable replacement for the string
functions the embedding needs). -/
def charsPrefix : List Char → List Char → Bool
  | [], _ => true
  | _ :: _, [] => false
  | a :: as, b :: bs => a = b && charsPrefix as bs

/-- Char-list substring test. -/
def charsContain (hay needle : List Char) : Bool :=
  match hay with
  | [] => needle.isEmpty
  | _ :: t => charsPrefix needle hay || charsContain t needle

/-- Char-list suffix test. -/
def charsSuffix (needle hay : List Char) : Bool :=
  charsPrefix needle.reverse hay.reverse

/-- `String.prototype.toLowerCase` for the ASCII strings the code handles. -/
def lowerStr (s : String) : String := ⟨s.data.map Char.toLower⟩

/-- `String.prototype.toUpperCase` for the ASCII strings the code handles. -/
def upperStr (s : String) : String := ⟨s.data.map Char.toUpper⟩

/-- JavaScript whitespace as far as `trim` is concerned here. -/
def jsWhitespace (c : Char) : Bool :=
  c = ' ' || c = '\t' || c = '\n' || c = '\r'

/-- `String.prototype.trim`. -/
def trimStr (s : String) : String :=
  ⟨((s.data.dropWhile jsWhitespace).reverse.dropWhile jsWhitespace).reverse⟩

/-- Splitting a char list on a separator char (`String.prototype.split('.')`). -/
def splitOnChar (c : Char) : List Char → List (List Char)
  | [] => [[]]
  | h :: t =>
    match splitOnChar c t with
    | [] => [[]]
    | x :: xs => if h = c then [] :: x :: xs else (h :: x) :: xs

/-- Replace the first occurrence of `pat` (`String.prototype.replace`). -/
def replaceFirstChars (pat repl : List Char) : List Char → List Char
  | [] => []
  | h :: t =>
    if charsPrefix pat (h :: t) then repl ++ (h :: t).drop pat.length
    else h :: replaceFirstChars pat repl t

/-- `ITEMS_PER_PAGE` from addon.js line 106. -/
def ITEMS_PER_PAGE : Nat := 500

/-- `MAX_PAGES` from addon.js line 107. -/
def MAX_PAGES : Nat := 20

/-- `CONCURRENT_PAGES` from addon.js line 108. -/
def CONCURRENT_PAGES : Nat := 5

/-- The 2000 ms back-off used between navigation retries (addon.js lines 273, 278). -/
def RETRY_DELAY_MS : Nat := 2000

/-- JavaScript `s.includes(sub)` for the non-empty substrings used by the code. -/
def jsIncludes (s sub : String) : Bool := charsContain s.data sub.data

/-- JavaScript `a || b` on strings: the empty string is falsy. -/
def jsOr (a b : String) : String := if a = "" then b else a

/-- JavaScript `String.prototype.replace(pat, repl)`: replace the first occurrence. -/
def replaceFirst (s pat repl : String) : String :=
  ⟨replaceFirstChars pat.data repl.data s.data⟩

/-- JavaScript `parseInt(s) || 0` for the strings fed to it by the code
(a leading run of digits, else `NaN || 0 = 0`). -/
def jsParseIntOr0 (s : String) : Nat :=
  let digits := s.data.takeWhile Char.isDigit
  if digits = [] then 0
  else digits.foldl (fun n c => n * 10 + (c.toNat - 48)) 0

/-- JavaScript `Array.prototype.slice(start, stop)` on non-negative indices. -/
def jsSlice {α : Type} (l : List α) (start stop : Nat) : List α :=
  (l.take stop).drop start

/-- Lookup in a JavaScript `Map` modelled as an association list. -/
def mapGet {α : Type} : List (String × α) → String → Option α
  | [], _ => none
  | p :: rest, k => if p.1 = k then some p.2 else mapGet rest k

/-- `Map.prototype.set`: overwrite in place when the key exists, else append. -/
def mapSet {α : Type} (m : List (String × α)) (k : String) (v : α) :
    List (String × α) :=
  if (mapGet m k).isSome then
    m.map (fun p => if p.1 = k then (k, v) else p)
  else m ++ [(k, v)]

/-- `Map.prototype.delete`. -/
def mapDelete {α : Type} (m : List (String × α)) (k : String) : List (String × α) :=
  m.filter (fun p => decide (p.1 ≠ k))

/-- The keys of a modelled `Map`, in insertion order. -/
def mapKeys {α : Type} (m : List (String × α)) : List String :=
  m.map (fun p => p.1)

/-- One entry of the `Cache` class: `{ value, expires }` (addon.js line 95). -/
structure CacheEntry (α : Type) where
  value : α
  expires : Int
deriving DecidableEq

/-- The `Cache` class (addon.js lines 79-100): a `Map` plus a default TTL. -/
structure Cache (α : Type) where
  data : List (String × CacheEntry α)
  ttl : Int
deriving DecidableEq

/-- `Cache.prototype.get` (addon.js lines 84-92).  `now` stands for `Date.now()`;
the call returns the looked-up value together with the cache state after the
call (lazy eviction deletes an expired entry). -/
def Cache.get {α : Type} (c : Cache α) (k : String) (now : Int) :
    Option α × Cache α :=
  match mapGet c.data k with
  | none => (none, c)
  | some item =>
    if item.expires < now then (none, { c with data := mapDelete c.data k })
    else (some item.value, c)

/-- `Cache.prototype.set` (addon.js lines 93-96).  `customTtl` is the optional
third argument; `customTtl || this.ttl` makes a zero override fall back to the
default TTL (JavaScript falsiness). -/
def Cache.set {α : Type} (c : Cache α) (k : String) (v : α)
    (customTtl : Option Int) (now : Int) : Cache α :=
  let eff : Int :=
    match customTtl with
    | none => c.ttl
    | some t => if t = 0 then c.ttl else t
  { c with data := mapSet c.data k ⟨v, now + eff⟩ }

/-- `Cache.prototype.clear` (addon.js lines 97-99). -/
def Cache.clear {α : Type} (c : Cache α) : Cache α := { c with data := [] }

/-- Default TTL of `streamCache` (addon.js line 104): one hour in ms. -/
def STREAM_CACHE_TTL : Int := 1 * 60 * 60 * 1000

/-- One listing record as produced by `fetchPage`'s in-page extraction
(addon.js lines 377-385). -/
structure CatalogEntry where
  id : String
  name : String
  poster : String
  link : String
  episodeNumber : Option String
deriving DecidableEq

/-- The batch of page numbers prepared by `fetchCatalog` (addon.js lines
187-192): up to `CONCURRENT_PAGES` consecutive pages starting at `nextPage`,
stopping at `MAX_PAGES`. -/
def pagesToLoad (nextPage : Nat) : List Nat :=
  ((List.range CONCURRENT_PAGES).takeWhile
      (fun i => decide (nextPage + i ≤ MAX_PAGES))).map (fun i => nextPage + i)

/-- `Promise.all` over `fetchPage` calls followed by `.flat()` (addon.js lines
203-206): each page yields a record list or rejects; a single rejection fails
the whole batch.  `.filter(Boolean)` is the identity here because extracted
records are always truthy objects. -/
def fetchBatch (oracle : Nat → Except Unit (List CatalogEntry)) :
    List Nat → Except Unit (List CatalogEntry)
  | [] => .ok []
  | p :: ps =>
    match oracle p, fetchBatch oracle ps with
    | .ok xs, .ok rest => .ok (xs ++ rest)
    | .error e, _ => .error e
    | .ok _, .error e => .error e

/-- The `while` loop of `fetchCatalog` (addon.js lines 185-226), with explicit
fuel.  Each iteration fetches one batch: an error or an empty batch breaks the
loop, otherwise the batch is appended wholesale
(`allItems = [...allItems, ...pageItems]`, line 217) and the loop continues.
The fuel given by `fetchCatalogAll` always suffices because every non-breaking
iteration grows `allItems` and the loop stops at `MAX_PAGES * ITEMS_PER_PAGE`. -/
def fetchCatalogLoop (oracle : Nat → Except Unit (List CatalogEntry))
    (skip : Nat) : Nat → List CatalogEntry → List CatalogEntry
  | 0, allItems => allItems
  | fuel+1, allItems =>
    if allItems.length < skip + ITEMS_PER_PAGE ∧
        allItems.length < MAX_PAGES * ITEMS_PER_PAGE then
      let pages := pagesToLoad (allItems.length / ITEMS_PER_PAGE + 1)
      if pages = [] then allItems
      else
        match fetchBatch oracle pages with
        | .error _ => allItems
        | .ok pageItems =>
          if pageItems = [] then allItems
          else fetchCatalogLoop oracle skip fuel (allItems ++ pageItems)
    else allItems

/-- The accumulated namespace sequence after `fetchCatalog`'s pagination loop,
starting from the cached sequence `cached` (addon.js line 182 reads it from
`catalogCache`; line 218 writes each grown sequence back). -/
def fetchCatalogAll (oracle : Nat → Except Unit (List CatalogEntry))
    (skip : Nat) (cached : List CatalogEntry) : List CatalogEntry :=
  fetchCatalogLoop oracle skip (MAX_PAGES * ITEMS_PER_PAGE + 1) cached

/-- `fetchCatalog` (addon.js lines 177-233): run the pagination loop, then
return `allItems.slice(skip, min(skip + ITEMS_PER_PAGE, allItems.length))`. -/
def fetchCatalog (oracle : Nat → Except Unit (List CatalogEntry))
    (skip : Nat) (cached : List CatalogEntry) : List CatalogEntry :=
  let allItems := fetchCatalogAll oracle skip cached
  jsSlice allItems skip (min (skip + ITEMS_PER_PAGE) allItems.length)

/-- Outcome of one `page.goto` call inside `fetchPage`: a transport error
(the promise rejects) or a response with a status code. -/
inductive NavOutcome where
  | transportError
  | response (status : Nat)
deriving DecidableEq

/-- The navigation retry loop of `fetchPage` (addon.js lines 262-280).
`nav k` is the outcome of the `k`-th `page.goto` attempt; `retries` is the
loop counter starting at 3; `resp` models the `response` variable (set by every
non-rejecting attempt); `delayMs` accumulates the fixed 2000 ms back-off waits.
A transport error with the counter exhausted rethrows (the `.error` case). -/
def navLoop (nav : Nat → NavOutcome) :
    Nat → Nat → Option Nat → Nat → Except Unit (Option Nat × Nat)
  | 0, _, resp, delayMs => .ok (resp, delayMs)
  | retries+1, k, resp, delayMs =>
    match nav k with
    | .response s =>
      if s = 200 then .ok (some s, delayMs)
      else if 0 < retries then
        navLoop nav retries (k+1) (some s) (delayMs + RETRY_DELAY_MS)
      else navLoop nav retries (k+1) (some s) delayMs
    | .transportError =>
      if retries = 0 then .error ()
      else navLoop nav retries (k+1) resp (delayMs + RETRY_DELAY_MS)

/-- `fetchPage` (addon.js lines 235-400) as seen by its caller.  `newPageOk`
models `browser.newPage()` (line 236, outside the `try`, so its failure does
propagate); `extract` is the record list the in-page evaluation would produce.
After the retry loop, a missing or non-200 response returns `[]` (lines
282-285); the outer `catch` turns every error thrown inside the `try` —
including the rethrow from exhausted transport-error retries — into `[]`
(lines 394-396). -/
def fetchPageResult (newPageOk : Bool) (nav : Nat → NavOutcome)
    (extract : List CatalogEntry) : Except Unit (List CatalogEntry) :=
  if newPageOk then
    match navLoop nav 3 0 none 0 with
    | .error _ => .ok []
    | .ok (resp, _) =>
      match resp with
      | some s => if s = 200 then .ok extract else .ok []
      | none => .ok []
  else .error ()

/-- Outcome of one iteration of the meta/stream handlers' fallback loop
(addon.js lines 795-846 and 902-953): a thrown error anywhere in the `try`
(`.err`), a non-200 status from the handler's own `page.goto` (`.nonOk`), or
the record list obtained from the single-page `fetchPage` call (`.ok`). -/
inductive CrawlStep where
  | err
  | nonOk
  | ok (items : List CatalogEntry)
deriving DecidableEq

/-- The `while (!found && pageNum <= MAX_PAGES)` fallback loop shared by the
meta and stream handlers (addon.js lines 795-846, 902-953), with explicit
fuel.  An error or non-200 breaks; an empty page breaks; otherwise the page's
yield is appended to the cached sequence (`cachedItems.push(...pageItems)`,
persisted via `catalogCache.set`) and the yield is searched for the target id;
on a miss the loop advances to the next page. -/
def lookupLoop (crawl : Nat → CrawlStep) (targetId : String) :
    Nat → Nat → List CatalogEntry → Option CatalogEntry × List CatalogEntry
  | 0, _, cached => (none, cached)
  | fuel+1, pageNum, cached =>
    if pageNum ≤ MAX_PAGES then
      match crawl pageNum with
      | .err => (none, cached)
      | .nonOk => (none, cached)
      | .ok pageItems =>
        if pageItems = [] then (none, cached)
        else
          match pageItems.find? (fun i => decide (i.id = targetId)) with
          | some item => (some item, cached ++ pageItems)
          | none => lookupLoop crawl targetId fuel (pageNum+1) (cached ++ pageItems)
    else (none, cached)

/-- The fallback loop started at an arbitrary page, with enough fuel for the
`MAX_PAGES` ceiling. -/
def lookupFrom (crawl : Nat → CrawlStep) (targetId : String) (pageNum : Nat)
    (cached : List CatalogEntry) : Option CatalogEntry × List CatalogEntry :=
  lookupLoop crawl targetId (MAX_PAGES + 1) pageNum cached

/-- The fallback as the handlers run it: `let pageNum = 1` (addon.js lines
791, 898). -/
def lookupFallback (crawl : Nat → CrawlStep) (targetId : String)
    (cached : List CatalogEntry) : Option CatalogEntry × List CatalogEntry :=
  lookupFrom crawl targetId 1 cached

/-- Modelled from the spec (section 4.4): the same fallback loop but started
at `floor(cachedLength / pageSize) + 1`, resuming after the already-cached
pages.  Kept for comparison with `lookupFallback`, which is what the code
does. -/
def lookupFallbackSpec (crawl : Nat → CrawlStep) (targetId : String)
    (cached : List CatalogEntry) : Option CatalogEntry × List CatalogEntry :=
  lookupFrom crawl targetId (cached.length / ITEMS_PER_PAGE + 1) cached

/-- One entry of the quality-keyed `streams` map in `fetchVideoDetails`
(addon.js lines 437-441, 585-588). -/
structure StreamCand where
  url : String
  quality : String
  qualityNum : Nat
deriving DecidableEq

/-- The media-URL test of the request interceptor (addon.js line 422):
`/\.(m3u8|mp4|mkv|avi|mov)(\?|$)/i`. -/
def isMediaUrl (u : String) : Bool :=
  let l := lowerStr u
  ["m3u8", "mp4", "mkv", "avi", "mov"].any
    (fun e => charsSuffix ('.' :: e.data) l.data ||
      charsContain l.data ('.' :: (e.data ++ ['?'])))

/-- Quality classification of an intercepted request URL (addon.js lines
423-428). -/
def classifyQuality (u : String) : String :=
  if jsIncludes u "2160" then "2160p"
  else if jsIncludes u "1080" then "1080p"
  else if jsIncludes u "720" then "720p"
  else if jsIncludes u "480" then "480p"
  else if jsIncludes u "360" then "360p"
  else "Unknown"

/-- The `page.on('request')` handler of `fetchVideoDetails` (addon.js lines
420-446) applied to one request URL: unknown-quality media requests are
dropped, recognized ones are stored keyed by quality label. -/
def interceptRequest (streams : List (String × StreamCand)) (u : String) :
    List (String × StreamCand) :=
  if isMediaUrl u then
    let quality := classifyQuality u
    if quality = "Unknown" then streams
    else mapSet streams quality ⟨u, quality, jsParseIntOr0 quality⟩
  else streams

/-- The `streams` map accumulated from all intercepted requests, in arrival
order. -/
def interceptAll (urls : List String) : List (String × StreamCand) :=
  urls.foldl interceptRequest []

/-- A `<source>` element inside a `<video>`; empty string means the attribute
is absent. -/
structure SourceEl where
  src : String
  size : String
  label : String
  title : String
deriving DecidableEq

/-- A `<track>` element; empty string means the attribute is absent. -/
structure TrackEl where
  src : String
  srclang : String
  label : String
  kind : String
deriving DecidableEq

/-- A `<video>` element with its nested `<source>` and `<track>` children. -/
structure VideoEl where
  src : String
  size : String
  sources : List SourceEl
  tracks : List TrackEl
deriving DecidableEq

/-- One entry of the in-page `sources` map (addon.js lines 527-530, 541-544). -/
structure SourceCand where
  url : String
  quality : String
deriving DecidableEq

/-- The video-source extraction of the first `page.evaluate` (addon.js lines
521-547): the `video.src` path keyed by `size || 'Default'`, then each
`<source>` keyed by `size || label || title || 'Unknown'`, skipping
`'Unknown'`. -/
def videoSourcesStep (m : List (String × SourceCand)) (v : VideoEl) :
    List (String × SourceCand) :=
  let m1 :=
    if v.src ≠ "" then
      let quality := jsOr v.size "Default"
      if quality ≠ "Unknown" then mapSet m quality ⟨v.src, quality⟩ else m
    else m
  v.sources.foldl
    (fun m2 s =>
      if s.src ≠ "" then
        let quality := jsOr s.size (jsOr s.label (jsOr s.title "Unknown"))
        if quality ≠ "Unknown" then mapSet m2 quality ⟨s.src, quality⟩ else m2
      else m2) m1

/-- `Array.from(sources.values())` over all `<video>` elements. -/
def extractSourceList (videos : List VideoEl) : List SourceCand :=
  (videos.foldl videoSourcesStep []).map (fun p => p.2)

/-- The quality number computed when merging a DOM source into the `streams`
map (addon.js lines 578-583). -/
def domQualityNum (q : String) : Nat :=
  if jsIncludes q "2160" then 2160
  else if jsIncludes q "1080" then 1080
  else if jsIncludes q "720" then 720
  else if jsIncludes q "480" then 480
  else if jsIncludes q "360" then 360
  else 0

/-- The body of the `videoData.sources.forEach` merge (addon.js lines
576-590): one DOM-extracted source is added only when its quality label is not
already a key (`!streams.has(source.quality)`) and is not `'Unknown'`. -/
def mergeSourceStep (st : List (String × StreamCand)) (s : SourceCand) :
    List (String × StreamCand) :=
  if mapGet st s.quality = none ∧ s.quality ≠ "Unknown" then
    mapSet st s.quality ⟨s.url, s.quality, domQualityNum s.quality⟩
  else st

/-- The merge of all DOM-extracted sources into the interception `streams`
map (addon.js lines 576-590). -/
def mergeDomSources (streams : List (String × StreamCand))
    (sources : List SourceCand) : List (String × StreamCand) :=
  sources.foldl mergeSourceStep streams

/-- One subtitle record of the in-page `subtitles` map (addon.js lines
496-501, 512-517). -/
structure SubtitleEntry where
  url : String
  lang : String
  id : String
  name : Option String
  format : Option String
deriving DecidableEq

/-- A subtitle download button (addon.js line 464); `linkHref` is the `href`
of the `.ass`/`.srt`/`.vtt` link found inside it, when one exists. -/
structure SubButton where
  linkHref : Option String
  text : String
deriving DecidableEq

/-- The language-name table of the button extraction (addon.js lines 479-488). -/
def langMap (l : String) : Option String :=
  if l = "English" then some "eng"
  else if l = "German" then some "ger"
  else if l = "Spanish" then some "spa"
  else if l = "French" then some "fre"
  else if l = "Hindi" then some "hin"
  else if l = "Portuguese" then some "por"
  else if l = "Russian" then some "rus"
  else if l = "Italian" then some "ita"
  else none

/-- The language token of a button: `buttonText.match(/^([A-Za-z]+)/)`, with
`'English'` when the match fails (addon.js lines 476, 490). -/
def buttonLang (text : String) : String :=
  let t : String := ⟨(trimStr text).data.takeWhile Char.isAlpha⟩
  if t = "" then "English" else t

/-- Processing of one subtitle button (addon.js lines 467-502): the map entry
is keyed by the raw language-name token, while `lang`/`id` carry the mapped
3-letter code (default `eng`). -/
def buttonStep (m : List (String × SubtitleEntry)) (b : SubButton) :
    List (String × SubtitleEntry) :=
  match b.linkHref with
  | none => m
  | some href =>
    if href = "" then m
    else
      let lang := buttonLang b.text
      let code := (langMap lang).getD "eng"
      let isAuto := jsIncludes (lowerStr (trimStr b.text)) "auto translated"
      mapSet m lang ⟨href, code, code,
        some (lang ++ (if isAuto then " (Auto)" else "")), none⟩

/-- `src.split('.').pop().toLowerCase()` (addon.js line 516). -/
def fileExt (src : String) : String :=
  lowerStr ⟨(splitOnChar '.' src.data).getLastD []⟩

/-- Processing of one `<track>` element (addon.js lines 506-519 and 550-563):
keyed by `srclang || 'und'`; subtitles/captions with a non-empty `src` only. -/
def trackStep (m : List (String × SubtitleEntry)) (t : TrackEl) :
    List (String × SubtitleEntry) :=
  if t.src ≠ "" ∧ (t.kind = "subtitles" ∨ t.kind = "captions") then
    let lang := jsOr t.srclang "und"
    let label := jsOr t.label lang
    mapSet m lang ⟨t.src, lang, label, none, some (fileExt t.src)⟩
  else m

/-- The full subtitle extraction of the first `page.evaluate` (addon.js lines
458-573): buttons first, then document-level `<track>` elements, then the
`<track>` children of each `<video>`; finally `Array.from(subtitles.values())`. -/
def extractSubtitles (buttons : List SubButton) (docTracks : List TrackEl)
    (videos : List VideoEl) : List SubtitleEntry :=
  let m0 := buttons.foldl buttonStep []
  let m1 := docTracks.foldl trackStep m0
  let m2 := videos.foldl (fun mm v => v.tracks.foldl trackStep mm) m1
  m2.map (fun p => p.2)

/-- The subtitle entry a download button produces (the fields of the
`subtitles.set` call at addon.js lines 496-501). -/
def buttonEntry (href btext : String) : SubtitleEntry :=
  let lang := buttonLang btext
  let code := (langMap lang).getD "eng"
  let isAuto := jsIncludes (lowerStr (trimStr btext)) "auto translated"
  ⟨href, code, code, some (lang ++ (if isAuto then " (Auto)" else "")), none⟩

/-- The subtitle entry a `<track>` element produces (the fields of the
`subtitles.set` call at addon.js lines 512-517). -/
def trackEntry (src srclang label : String) : SubtitleEntry :=
  let lang := jsOr srclang "und"
  ⟨src, lang, jsOr label lang, none, some (fileExt src)⟩

/-- The HTTPS filter of the final stream composition (addon.js lines 682-688):
`new URL(stream.url).protocol === 'https:'`, `false` on a parse failure. -/
def urlIsHttps (u : String) : Bool := charsPrefix "https:".data u.data

/-- The quality→human-label table (addon.js lines 691-697). -/
def qualityDesc (q : String) : Option String :=
  if q = "2160p" then some "4K Ultra HD"
  else if q = "1080p" then some "Full HD"
  else if q = "720p" then some "HD"
  else if q = "480p" then some "SD"
  else if q = "360p" then some "Low Quality"
  else none

/-- `qualityDesc[stream.quality] || stream.quality` (addon.js lines 700-702). -/
def displayTitle (q : String) : String := (qualityDesc q).getD q

/-- Descending-quality comparison used by `.sort((a, b) => b.qualityNum -
a.qualityNum)` (addon.js line 689). -/
def qualityGE (a b : StreamCand) : Prop := b.qualityNum ≤ a.qualityNum

instance : DecidableRel qualityGE := fun a b =>
  inferInstanceAs (Decidable (b.qualityNum ≤ a.qualityNum))

instance : IsTotal StreamCand qualityGE :=
  ⟨fun a b => Nat.le_total b.qualityNum a.qualityNum⟩

instance : IsTrans StreamCand qualityGE :=
  ⟨fun _ _ _ hab hbc => Nat.le_trans hbc hab⟩

/-- The candidates surviving the HTTPS filter, sorted by descending
`qualityNum`.  JavaScript `Array.prototype.sort` is stable, so the stable
insertion sort computes the same list. -/
def sortedCandidates (streams : List (String × StreamCand)) : List StreamCand :=
  List.insertionSort qualityGE
    ((streams.map (fun p => p.2)).filter (fun s => urlIsHttps s.url))

/-- A subtitle record as attached to a stream payload (addon.js lines 706-712). -/
structure StreamSub where
  id : String
  url : String
  lang : String
  format : Option String
  name : String
deriving DecidableEq

/-- One stream payload of the resolved result (addon.js lines 699-715). -/
structure StreamData where
  title : String
  url : String
  name : String
  subtitles : Option (List StreamSub)
deriving DecidableEq

/-- The final `uniqueStreams` composition (addon.js lines 681-716): filter to
HTTPS, sort by descending quality, map to display payloads with the full
subtitle list attached to every stream when it is non-empty. -/
def composeStreams (streams : List (String × StreamCand)) (metaTitle : String)
    (subs : List SubtitleEntry) : List StreamData :=
  (sortedCandidates streams).map
    (fun s =>
      { title := displayTitle s.quality
        url := s.url
        name := metaTitle ++ " (" ++ displayTitle s.quality ++ ")"
        subtitles :=
          if subs = [] then none
          else some (subs.map (fun sub =>
            { id := sub.id, url := sub.url, lang := sub.lang,
              format := sub.format, name := upperStr sub.lang ++ " Subtitles" })) })

/-- The double-origin URL repair at the top of `fetchVideoDetails` (addon.js
lines 404-406). -/
def fixUrl (u : String) : String :=
  if jsIncludes u "hstream.moehttps://" then
    replaceFirst u "hstream.moehttps://" "https://"
  else u

/-- The page metadata returned by the second `page.evaluate` (addon.js lines
592-676). -/
structure PageMeta where
  title : String
  japaneseTitle : Option String
  description : String
  releaseInfo : Option String
  studio : Option String
  genres : List String
  viewCount : Option String
  episodeNumber : Option String
  subtitles : List SubtitleEntry
deriving DecidableEq

/-- The DOM contents consumed by the first `page.evaluate`. -/
structure PageDom where
  buttons : List SubButton
  docTracks : List TrackEl
  videos : List VideoEl
deriving DecidableEq

/-- The result object of `fetchVideoDetails` (`{ ...meta, streams }`, addon.js
lines 720-723).  The degraded failure result carries only `title` and
`streams`, hence the optional metadata fields. -/
structure Result where
  title : String
  japaneseTitle : Option String := none
  description : Option String := none
  releaseInfo : Option String := none
  studio : Option String := none
  genres : Option (List String) := none
  viewCount : Option String := none
  episodeNumber : Option String := none
  subtitles : Option (List SubtitleEntry) := none
  streams : List StreamData := []
deriving DecidableEq

/-- The degraded result returned from the `catch` block (addon.js lines
730-733). -/
def degradedResult : Result := { title := "Unknown", streams := [] }

/-- The browser-side effects one `fetchVideoDetails` call depends on:
whether `launchBrowser()`/`newPage()` succeed, whether navigation and the
`video` selector wait succeed, the intercepted media request URLs, and the
outcomes of the two `page.evaluate` calls. -/
structure ResolveEnv where
  launchOk : Bool
  navOk : Bool
  requestUrls : List String
  dom : Except Unit PageDom
  meta : Except Unit PageMeta

/-- The body of `fetchVideoDetails` after a successful browser launch
(addon.js lines 415-726): any failure in navigation, the selector wait or
either evaluation throws; otherwise the result is composed from the
intercepted streams, the merged DOM sources and the extracted subtitles. -/
def resolveAfterLaunch (env : ResolveEnv) : Except Unit Result :=
  if env.navOk then
    match env.dom with
    | .error _ => .error ()
    | .ok dom =>
      match env.meta with
      | .error _ => .error ()
      | .ok md =>
        let streams0 := interceptAll env.requestUrls
        let streams1 := mergeDomSources streams0 (extractSourceList dom.videos)
        let subs := extractSubtitles dom.buttons dom.docTracks dom.videos
        .ok { title := md.title
              japaneseTitle := md.japaneseTitle
              description := some md.description
              releaseInfo := md.releaseInfo
              studio := md.studio
              genres := some md.genres
              viewCount := md.viewCount
              episodeNumber := md.episodeNumber
              subtitles := some md.subtitles
              streams := composeStreams streams1 md.title subs }
  else .error ()

/-- The observable outcome of one `fetchVideoDetails` call: the returned
result, the stream cache afterwards, and how many rendering sessions were
opened and closed during the call. -/
structure ResolveCall where
  result : Result
  cacheAfter : Cache Result
  sessionsOpened : Nat
  sessionsClosed : Nat
deriving DecidableEq

/-- `fetchVideoDetails` (addon.js lines 402-735): repair the URL, consult
`streamCache` under `details-` + url; on a hit return the cached result with
no browser work.  On a miss, a launch failure reaches the `catch` with no
browser open; any later failure closes the browser and returns the degraded
result without caching it; success closes the browser, caches the composed
result with the cache's default TTL and returns it. -/
def fetchVideoDetails (env : ResolveEnv) (url : String) (cache : Cache Result)
    (now : Int) : ResolveCall :=
  match Cache.get cache ("details-" ++ fixUrl url) now with
  | (some r, c1) =>
    { result := r, cacheAfter := c1, sessionsOpened := 0, sessionsClosed := 0 }
  | (none, c1) =>
    if env.launchOk then
      match resolveAfterLaunch env with
      | .error _ =>
        { result := degradedResult, cacheAfter := c1,
          sessionsOpened := 1, sessionsClosed := 1 }
      | .ok r =>
        { result := r,
          cacheAfter := Cache.set c1 ("details-" ++ fixUrl url) r none now,
          sessionsOpened := 1, sessionsClosed := 1 }
    else
      { result := degradedResult, cacheAfter := c1,
        sessionsOpened := 0, sessionsClosed := 0 }

/-- The spec's words for the claimed stream ordering: every adjacent pair of
quality ranks strictly decreases.  Compared against what `sortedCandidates`
actually produces. -/
def specStrictlyDescending : List Nat → Bool
  | [] => true
  | [_] => true
  | a :: b :: t => (b < a) && specStrictlyDescending (b :: t)

/-! Concrete sample inputs used by witnesses and counterexamples. -/

/-- A sample catalog record. -/
def eDup : CatalogEntry :=
  ⟨"hstream:popular:dup-1", "Dup - 1", "", "https://hstream.moe/hentai/dup-1", some "1"⟩

/-- A second, distinct sample catalog record. -/
def eOther : CatalogEntry :=
  ⟨"hstream:popular:other-3", "Other - 3", "", "https://hstream.moe/hentai/other-3", some "3"⟩

/-- A sample lookup target. -/
def eTarget : CatalogEntry :=
  ⟨"hstream:popular:t-2", "T - 2", "", "https://hstream.moe/hentai/t-2", some "2"⟩

/-- A page oracle on which every page yields 100 copies of the same record. -/
def oracleDup : Nat → Except Unit (List CatalogEntry) :=
  fun _ => .ok (List.replicate 100 eDup)

/-- A page oracle on which every page yields a pair of identical records. -/
def oracleDup2 : Nat → Except Unit (List CatalogEntry) :=
  fun _ => .ok [eDup, eDup]

/-- A page oracle on which every page is empty. -/
def oracleEmpty : Nat → Except Unit (List CatalogEntry) :=
  fun _ => .ok []

/-- A crawl oracle: page 1 carries the target, later pages return non-200. -/
def crawlFind : Nat → CrawlStep :=
  fun p => if p = 1 then .ok [eTarget] else .nonOk

/-- A crawl oracle whose every page returns non-200. -/
def crawlNonOk : Nat → CrawlStep := fun _ => .nonOk

/-- A navigation oracle that always returns status 500. -/
def nav500 : Nat → NavOutcome := fun _ => .response 500

/-- A navigation oracle that always rejects with a transport error. -/
def navErr : Nat → NavOutcome := fun _ => .transportError

/-- A navigation oracle that immediately returns status 200. -/
def nav200 : Nat → NavOutcome := fun _ => .response 200

/-- A navigation oracle that always returns status 404. -/
def nav404 : Nat → NavOutcome := fun _ => .response 404

/-- A navigation oracle that returns 404 on the first three attempts and 200
afterwards (the later attempts are never made). -/
def navLate200 : Nat → NavOutcome :=
  fun i => if i < 3 then .response 404 else .response 200

/-- A resolver environment whose browser launch fails. -/
def envLaunchFail : ResolveEnv :=
  { launchOk := false, navOk := true, requestUrls := [],
    dom := .ok ⟨[], [], []⟩, meta := .error () }

/-- A sample page-metadata record. -/
def sampleMeta : PageMeta :=
  { title := "Sample", japaneseTitle := none, description := "d",
    releaseInfo := none, studio := none, genres := [], viewCount := none,
    episodeNumber := none, subtitles := [] }

/-- A resolver environment whose navigation / selector wait fails. -/
def envNavFail : ResolveEnv :=
  { launchOk := true, navOk := false, requestUrls := ["https://c/x720.mp4"],
    dom := .ok ⟨[], [], []⟩, meta := .ok sampleMeta }

/-- A fully successful resolver environment with one intercepted 1080p stream. -/
def envOk : ResolveEnv :=
  { launchOk := true, navOk := true, requestUrls := ["https://c/v1080.mp4"],
    dom := .ok ⟨[], [], []⟩, meta := .ok sampleMeta }

/-- The result `envOk` resolves to. -/
def envOkResult : Result :=
  { title := "Sample", japaneseTitle := none, description := some "d",
    releaseInfo := none, studio := none, genres := some [], viewCount := none,
    episodeNumber := none, subtitles := some [],
    streams := [{ title := "Full HD", url := "https://c/v1080.mp4",
                  name := "Sample (Full HD)", subtitles := none }] }

/-- An empty stream cache with the TTL `streamCache` is constructed with. -/
def emptyStreamCache : Cache Result := ⟨[], STREAM_CACHE_TTL⟩

/-! ### Generic lemmas about the `Map` model -/

theorem mapGet_overwrite_self {α : Type} (m : List (String × α)) (k : String)
    (v : α) (h : (mapGet m k).isSome) :
    mapGet (m.map (fun p => if p.1 = k then (k, v) else p)) k = some v := by
  induction m with
  | nil => simp [mapGet] at h
  | cons p rest ih =>
    by_cases hp : p.1 = k
    · simp [mapGet, hp]
    · simp only [mapGet, hp, if_false] at h
      simp only [List.map_cons, if_neg hp, mapGet, hp, if_false]
      exact ih h

theorem mapGet_overwrite_other {α : Type} (m : List (String × α)) (k k' : String)
    (v : α) (hne : k' ≠ k) :
    mapGet (m.map (fun p => if p.1 = k then (k, v) else p)) k' = mapGet m k' := by
  induction m with
  | nil => simp [mapGet]
  | cons p rest ih =>
    by_cases hp : p.1 = k
    · have h1 : ¬ k = k' := fun hc => hne hc.symm
      have h2 : ¬ p.1 = k' := by rw [hp]; exact h1
      simp only [List.map_cons, if_pos hp, mapGet, h1, h2, if_false]
      exact ih
    · simp only [List.map_cons, if_neg hp, mapGet]
      by_cases hp' : p.1 = k'
      · simp [hp']
      · simp only [hp', if_false]
        exact ih

theorem mapGet_append_single_self {α : Type} (m : List (String × α)) (k : String)
    (v : α) (h : mapGet m k = none) : mapGet (m ++ [(k, v)]) k = some v := by
  induction m with
  | nil => simp [mapGet]
  | cons p rest ih =>
    by_cases hp : p.1 = k
    · simp [mapGet, hp] at h
    · simp only [mapGet, hp, if_false] at h
      simp only [List.cons_append, mapGet, hp, if_false]
      exact ih h

theorem mapGet_append_single_other {α : Type} (m : List (String × α))
    (k k' : String) (v : α) (hne : k' ≠ k) :
    mapGet (m ++ [(k, v)]) k' = mapGet m k' := by
  induction m with
  | nil =>
    simp only [List.nil_append, mapGet]
    rw [if_neg (fun hc : k = k' => hne hc.symm)]
  | cons p rest ih =>
    by_cases hp : p.1 = k'
    · simp [mapGet, hp]
    · simp only [List.cons_append, mapGet, hp, if_false]
      exact ih

theorem mapGet_mapSet_self {α : Type} (m : List (String × α)) (k : String)
    (v : α) : mapGet (mapSet m k v) k = some v := by
  unfold mapSet
  by_cases h : (mapGet m k).isSome
  · rw [if_pos h]; exact mapGet_overwrite_self m k v h
  · rw [if_neg h]
    apply mapGet_append_single_self
    cases hget : mapGet m k with
    | none => rfl
    | some w => rw [hget] at h; simp at h

theorem mapGet_mapSet_other {α : Type} (m : List (String × α)) (k k' : String)
    (v : α) (hne : k' ≠ k) : mapGet (mapSet m k v) k' = mapGet m k' := by
  unfold mapSet
  by_cases h : (mapGet m k).isSome
  · rw [if_pos h]; exact mapGet_overwrite_other m k k' v hne
  · rw [if_neg h]; exact mapGet_append_single_other m k k' v hne

theorem mapGet_none_not_mem_keys {α : Type} (m : List (String × α))
    (k : String) (h : mapGet m k = none) : k ∉ mapKeys m := by
  induction m with
  | nil => simp [mapKeys]
  | cons p rest ih =>
    by_cases hp : p.1 = k
    · simp [mapGet, hp] at h
    · simp only [mapGet, hp, if_false] at h
      have hrest := ih h
      simp only [mapKeys, List.map_cons, List.mem_cons]
      rintro (hc | hc)
      · exact hp hc.symm
      · exact hrest (by simpa [mapKeys] using hc)

theorem mapKeys_overwrite {α : Type} (m : List (String × α)) (k : String)
    (v : α) : mapKeys (m.map (fun p => if p.1 = k then (k, v) else p)) = mapKeys m := by
  induction m with
  | nil => simp [mapKeys]
  | cons p rest ih =>
    by_cases hp : p.1 = k
    · simp only [List.map_cons, if_pos hp, mapKeys, List.map_cons] at ih ⊢
      rw [hp]
      exact congrArg (k :: ·) ih
    · simp only [List.map_cons, if_neg hp, mapKeys, List.map_cons] at ih ⊢
      exact congrArg (p.1 :: ·) ih

theorem mapKeys_nodup_mapSet {α : Type} (m : List (String × α)) (k : String)
    (v : α) (h : (mapKeys m).Nodup) : (mapKeys (mapSet m k v)).Nodup := by
  unfold mapSet
  by_cases hs : (mapGet m k).isSome
  · rw [if_pos hs, mapKeys_overwrite]; exact h
  · rw [if_neg hs]
    have hnone : mapGet m k = none := by
      cases hget : mapGet m k with
      | none => rfl
      | some w => rw [hget] at hs; simp at hs
    have hk : k ∉ mapKeys m := mapGet_none_not_mem_keys m k hnone
    have hkeys : mapKeys (m ++ [(k, v)]) = mapKeys m ++ [k] := by simp [mapKeys]
    rw [hkeys]
    simp [List.nodup_append, h, hk]

theorem mapGet_some_filter_one {α : Type} (m : List (String × α)) (k : String)
    (v : α) (hn : (mapKeys m).Nodup) (h : mapGet m k = some v) :
    (m.filter (fun p => decide (p.1 = k))).length = 1 := by
  induction m with
  | nil => simp [mapGet] at h
  | cons p rest ih =>
    simp only [mapKeys, List.map_cons, List.nodup_cons] at hn
    by_cases hp : p.1 = k
    · have hnk : rest.filter (fun q => decide (q.1 = k)) = [] := by
        apply List.filter_eq_nil_iff.mpr
        intro q hq hdec
        simp only [decide_eq_true_eq] at hdec
        exact hn.1 (hp ▸ hdec ▸ List.mem_map.mpr ⟨q, hq, rfl⟩)
      rw [List.filter_cons_of_pos (by simpa using hp), hnk]
      rfl
    · simp only [mapGet, hp, if_false] at h
      rw [List.filter_cons_of_neg (by simpa using hp)]
      exact ih (by simpa [mapKeys] using hn.2) h

theorem mapGet_mapDelete_self {α : Type} (m : List (String × α)) (k : String) :
    mapGet (mapDelete m k) k = none := by
  induction m with
  | nil => simp [mapDelete, mapGet]
  | cons p rest ih =>
    by_cases hp : p.1 = k
    · simpa [mapDelete, List.filter, hp] using ih
    · simpa [mapDelete, List.filter, hp, mapGet] using ih

/-! ### Lemmas about the catalog pagination loop -/

theorem fetchCatalogLoop_stop (oracle : Nat → Except Unit (List CatalogEntry))
    (skip fuel : Nat) (items : List CatalogEntry)
    (h : MAX_PAGES * ITEMS_PER_PAGE ≤ items.length) :
    fetchCatalogLoop oracle skip fuel items = items := by
  cases fuel with
  | zero => rfl
  | succ f =>
    unfold fetchCatalogLoop
    rw [if_neg]
    intro hc
    omega

theorem fetchCatalogLoop_fuel (oracle : Nat → Except Unit (List CatalogEntry))
    (skip : Nat) :
    ∀ (f g : Nat) (items : List CatalogEntry),
      MAX_PAGES * ITEMS_PER_PAGE + 1 ≤ items.length + f →
      MAX_PAGES * ITEMS_PER_PAGE + 1 ≤ items.length + g →
      fetchCatalogLoop oracle skip f items = fetchCatalogLoop oracle skip g items := by
  intro f
  induction f with
  | zero =>
    intro g items h1 _
    rw [fetchCatalogLoop_stop oracle skip g items (by omega)]
    rfl
  | succ f ih =>
    intro g items h1 h2
    cases g with
    | zero =>
      rw [fetchCatalogLoop_stop oracle skip (f + 1) items (by omega)]
      rfl
    | succ g =>
      unfold fetchCatalogLoop
      by_cases hc : items.length < skip + ITEMS_PER_PAGE ∧
          items.length < MAX_PAGES * ITEMS_PER_PAGE
      · rw [if_pos hc, if_pos hc]
        by_cases hp : pagesToLoad (items.length / ITEMS_PER_PAGE + 1) = []
        · rw [if_pos hp, if_pos hp]
        · rw [if_neg hp, if_neg hp]
          cases hb : fetchBatch oracle (pagesToLoad (items.length / ITEMS_PER_PAGE + 1)) with
          | error e => rfl
          | ok pageItems =>
            change (if pageItems = [] then items
                else fetchCatalogLoop oracle skip f (items ++ pageItems)) =
              (if pageItems = [] then items
                else fetchCatalogLoop oracle skip g (items ++ pageItems))
            by_cases hpe : pageItems = []
            · rw [if_pos hpe, if_pos hpe]
            · rw [if_neg hpe, if_neg hpe]
              have hlen : 1 ≤ pageItems.length :=
                List.length_pos.mpr hpe
              exact ih g (items ++ pageItems)
                (by simp [List.length_append]; omega)
                (by simp [List.length_append]; omega)
      · rw [if_neg hc, if_neg hc]

theorem pagesToLoad_ne_nil : ∀ n, n < MAX_PAGES + 1 → pagesToLoad n ≠ [] := by
  decide

theorem fetchCatalogAll_no_loop (oracle : Nat → Except Unit (List CatalogEntry))
    (skip : Nat) (cached : List CatalogEntry)
    (h : ¬ (cached.length < skip + ITEMS_PER_PAGE ∧
        cached.length < MAX_PAGES * ITEMS_PER_PAGE)) :
    fetchCatalogAll oracle skip cached = cached := by
  unfold fetchCatalogAll fetchCatalogLoop
  rw [if_neg h]

theorem fetchCatalogAll_zero_batch (oracle : Nat → Except Unit (List CatalogEntry))
    (skip : Nat) (cached : List CatalogEntry)
    (h1 : cached.length < skip + ITEMS_PER_PAGE)
    (h2 : cached.length < MAX_PAGES * ITEMS_PER_PAGE)
    (hb : fetchBatch oracle (pagesToLoad (cached.length / ITEMS_PER_PAGE + 1)) = .ok []) :
    fetchCatalogAll oracle skip cached = cached := by
  unfold fetchCatalogAll fetchCatalogLoop
  rw [if_pos ⟨h1, h2⟩]
  have hpage : cached.length / ITEMS_PER_PAGE + 1 < MAX_PAGES + 1 := by
    have h3 : cached.length / ITEMS_PER_PAGE < MAX_PAGES :=
      (Nat.div_lt_iff_lt_mul (show 0 < ITEMS_PER_PAGE by decide)).mpr h2
    omega
  rw [if_neg (pagesToLoad_ne_nil _ hpage), hb]
  rfl

theorem fetchCatalogAll_error_batch (oracle : Nat → Except Unit (List CatalogEntry))
    (skip : Nat) (cached : List CatalogEntry) (e : Unit)
    (h1 : cached.length < skip + ITEMS_PER_PAGE)
    (h2 : cached.length < MAX_PAGES * ITEMS_PER_PAGE)
    (hb : fetchBatch oracle (pagesToLoad (cached.length / ITEMS_PER_PAGE + 1)) = .error e) :
    fetchCatalogAll oracle skip cached = cached := by
  unfold fetchCatalogAll fetchCatalogLoop
  rw [if_pos ⟨h1, h2⟩]
  have hpage : cached.length / ITEMS_PER_PAGE + 1 < MAX_PAGES + 1 := by
    have h3 : cached.length / ITEMS_PER_PAGE < MAX_PAGES :=
      (Nat.div_lt_iff_lt_mul (show 0 < ITEMS_PER_PAGE by decide)).mpr h2
    omega
  rw [if_neg (pagesToLoad_ne_nil _ hpage), hb]

theorem fetchCatalogAll_step (oracle : Nat → Except Unit (List CatalogEntry))
    (skip : Nat) (cached items : List CatalogEntry)
    (h1 : cached.length < skip + ITEMS_PER_PAGE)
    (h2 : cached.length < MAX_PAGES * ITEMS_PER_PAGE)
    (hb : fetchBatch oracle (pagesToLoad (cached.length / ITEMS_PER_PAGE + 1)) = .ok items)
    (hne : items ≠ []) :
    fetchCatalogAll oracle skip cached = fetchCatalogAll oracle skip (cached ++ items) := by
  conv_lhs => unfold fetchCatalogAll fetchCatalogLoop
  rw [if_pos ⟨h1, h2⟩]
  have hpage : cached.length / ITEMS_PER_PAGE + 1 < MAX_PAGES + 1 := by
    have h3 : cached.length / ITEMS_PER_PAGE < MAX_PAGES :=
      (Nat.div_lt_iff_lt_mul (show 0 < ITEMS_PER_PAGE by decide)).mpr h2
    omega
  rw [if_neg (pagesToLoad_ne_nil _ hpage), hb]
  change (if items = [] then cached
      else fetchCatalogLoop oracle skip (MAX_PAGES * ITEMS_PER_PAGE) (cached ++ items)) = _
  rw [if_neg hne]
  unfold fetchCatalogAll
  apply fetchCatalogLoop_fuel
  · have := List.length_pos.mpr hne
    simp [List.length_append]
    omega
  · omega

/-- C5: `fetchCatalog(skip, search, sortOrder)` loops fetching batches only
while the accumulated namespace length is below `skip + 500` and below the
hard ceiling `20 * 500`; each batch's first page number is
`floor(accumulatedLength / 500) + 1`; a batch yielding zero records stops the
loop normally; and the call always returns exactly the slice
`[skip, min(skip + 500, accumulatedLength))` of the accumulated sequence. -/
theorem fetchCatalog_loop_spec (oracle : Nat → Except Unit (List CatalogEntry))
    (skip : Nat) (cached items : List CatalogEntry) :
    (¬ (cached.length < skip + ITEMS_PER_PAGE ∧
        cached.length < MAX_PAGES * ITEMS_PER_PAGE) →
      fetchCatalogAll oracle skip cached = cached)
    ∧ (cached.length < skip + ITEMS_PER_PAGE →
        cached.length < MAX_PAGES * ITEMS_PER_PAGE →
        fetchBatch oracle (pagesToLoad (cached.length / ITEMS_PER_PAGE + 1)) = .ok items →
        items ≠ [] →
        fetchCatalogAll oracle skip cached = fetchCatalogAll oracle skip (cached ++ items))
    ∧ (cached.length < skip + ITEMS_PER_PAGE →
        cached.length < MAX_PAGES * ITEMS_PER_PAGE →
        fetchBatch oracle (pagesToLoad (cached.length / ITEMS_PER_PAGE + 1)) = .ok [] →
        fetchCatalogAll oracle skip cached = cached)
    ∧ fetchCatalog oracle skip cached =
        jsSlice (fetchCatalogAll oracle skip cached) skip
          (min (skip + ITEMS_PER_PAGE) (fetchCatalogAll oracle skip cached).length) :=
  ⟨fetchCatalogAll_no_loop oracle skip cached,
   fun h1 h2 hb hne => fetchCatalogAll_step oracle skip cached items h1 h2 hb hne,
   fun h1 h2 hb => fetchCatalogAll_zero_batch oracle skip cached h1 h2 hb,
   rfl⟩

set_option maxRecDepth 1000000 in
/-- Witness for C5 at concrete inputs: a 500-long cached sequence with
`skip = 0` triggers no fetching; a 499-long cached sequence takes one batch
step; an all-empty oracle stops immediately; and the returned value is the
requested slice. -/
theorem fetchCatalog_loop_spec_witness :
    fetchCatalogAll oracleEmpty 0 (List.replicate 500 eDup) = List.replicate 500 eDup
    ∧ fetchCatalogAll oracleDup2 0 (List.replicate 499 eOther)
        = fetchCatalogAll oracleDup2 0 (List.replicate 499 eOther ++ List.replicate 10 eDup)
    ∧ fetchCatalogAll oracleEmpty 0 [] = []
    ∧ fetchCatalog oracleEmpty 3 [] =
        jsSlice (fetchCatalogAll oracleEmpty 3 []) 3
          (min (3 + ITEMS_PER_PAGE) (fetchCatalogAll oracleEmpty 3 []).length) :=
  ⟨(fetchCatalog_loop_spec oracleEmpty 0 (List.replicate 500 eDup) []).1 (by decide),
   (fetchCatalog_loop_spec oracleDup2 0 (List.replicate 499 eOther)
      (List.replicate 10 eDup)).2.1 (by decide) (by decide) (by decide) (by decide),
   (fetchCatalog_loop_spec oracleEmpty 0 [] []).2.2.1 (by decide) (by decide) (by decide),
   (fetchCatalog_loop_spec oracleEmpty 3 [] []).2.2.2⟩

/-- C1 (amended): `fetchCatalog` appends each accepted batch to the cached
namespace sequence wholesale — no identity-based suppression happens at
insertion, so the occurrence count of every identity in the grown sequence is
the sum of its counts in the cached sequence and in the batch, and when the
batch fills the requested window the grown sequence (duplicates included) is
exactly the final accumulated sequence. -/
theorem catalog_append_no_dedup (oracle : Nat → Except Unit (List CatalogEntry))
    (skip : Nat) (cached items : List CatalogEntry)
    (h1 : cached.length < skip + ITEMS_PER_PAGE)
    (h2 : cached.length < MAX_PAGES * ITEMS_PER_PAGE)
    (hb : fetchBatch oracle (pagesToLoad (cached.length / ITEMS_PER_PAGE + 1)) = .ok items)
    (hne : items ≠ []) :
    fetchCatalogAll oracle skip cached = fetchCatalogAll oracle skip (cached ++ items)
    ∧ (∀ ident : String, ((cached ++ items).map CatalogEntry.id).count ident
        = ((cached.map CatalogEntry.id).count ident)
          + ((items.map CatalogEntry.id).count ident))
    ∧ (skip + ITEMS_PER_PAGE ≤ cached.length + items.length →
        fetchCatalogAll oracle skip cached = cached ++ items) := by
  refine ⟨fetchCatalogAll_step oracle skip cached items h1 h2 hb hne, ?_, ?_⟩
  · intro ident
    simp [List.map_append, List.count_append]
  · intro hge
    rw [fetchCatalogAll_step oracle skip cached items h1 h2 hb hne]
    apply fetchCatalogAll_no_loop
    intro hc
    rw [List.length_append] at hc
    omega

set_option maxRecDepth 1000000 in
/-- Counterexample for C1 as stated: with an oracle whose pages repeat one
record, the accumulated namespace sequence contains the same identity 500
times — duplicates are not suppressed at insertion. -/
theorem catalog_dedup_counterexample :
    ¬ ((fetchCatalogAll oracleDup 0 []).map CatalogEntry.id).Nodup
    ∧ ((fetchCatalogAll oracleDup 0 []).map CatalogEntry.id).count
        "hstream:popular:dup-1" = 500 := by
  exact ⟨by decide, by decide⟩

set_option maxRecDepth 1000000 in
/-- Witness for the amended C1 at concrete inputs: appending a ten-record
duplicate batch to a 499-record cache yields the concatenation, with additive
identity counts. -/
theorem catalog_append_no_dedup_witness :
    fetchCatalogAll oracleDup2 0 (List.replicate 499 eOther)
      = List.replicate 499 eOther ++ List.replicate 10 eDup
    ∧ ((List.replicate 499 eOther ++ List.replicate 10 eDup).map CatalogEntry.id).count
        "hstream:popular:dup-1"
      = ((List.replicate 499 eOther).map CatalogEntry.id).count "hstream:popular:dup-1"
        + ((List.replicate 10 eDup).map CatalogEntry.id).count "hstream:popular:dup-1" :=
  ⟨(catalog_append_no_dedup oracleDup2 0 (List.replicate 499 eOther)
      (List.replicate 10 eDup) (by decide) (by decide) (by decide) (by decide)).2.2
      (by decide),
   (catalog_append_no_dedup oracleDup2 0 (List.replicate 499 eOther)
      (List.replicate 10 eDup) (by decide) (by decide) (by decide) (by decide)).2.1
      "hstream:popular:dup-1"⟩

/-! ### Lemmas about the lookup-by-identity fallback loop -/

theorem lookupLoop_past_ceiling (crawl : Nat → CrawlStep) (t : String)
    (fuel p : Nat) (cached : List CatalogEntry) (h : MAX_PAGES < p) :
    lookupLoop crawl t fuel p cached = (none, cached) := by
  cases fuel with
  | zero => rfl
  | succ f =>
    unfold lookupLoop
    rw [if_neg (by omega)]

theorem lookupLoop_fuel (crawl : Nat → CrawlStep) (t : String) :
    ∀ (f g p : Nat) (cached : List CatalogEntry),
      MAX_PAGES + 1 ≤ p + f → MAX_PAGES + 1 ≤ p + g →
      lookupLoop crawl t f p cached = lookupLoop crawl t g p cached := by
  intro f
  induction f with
  | zero =>
    intro g p cached h1 _
    rw [lookupLoop_past_ceiling crawl t g p cached (by omega)]
    rfl
  | succ f ih =>
    intro g p cached h1 h2
    cases g with
    | zero =>
      rw [lookupLoop_past_ceiling crawl t (f + 1) p cached (by omega)]
      rfl
    | succ g =>
      unfold lookupLoop
      by_cases hp : p ≤ MAX_PAGES
      · rw [if_pos hp, if_pos hp]
        cases hc : crawl p with
        | err => rfl
        | nonOk => rfl
        | ok pageItems =>
          change (if pageItems = [] then (none, cached)
              else match pageItems.find? (fun i => decide (i.id = t)) with
                | some item => (some item, cached ++ pageItems)
                | none => lookupLoop crawl t f (p+1) (cached ++ pageItems)) =
            (if pageItems = [] then (none, cached)
              else match pageItems.find? (fun i => decide (i.id = t)) with
                | some item => (some item, cached ++ pageItems)
                | none => lookupLoop crawl t g (p+1) (cached ++ pageItems))
          by_cases hpe : pageItems = []
          · rw [if_pos hpe, if_pos hpe]
          · rw [if_neg hpe, if_neg hpe]
            cases hf : pageItems.find? (fun i => decide (i.id = t)) with
            | some item => rfl
            | none =>
              exact ih g (p+1) (cached ++ pageItems) (by omega) (by omega)
      · rw [if_neg hp, if_neg hp]

theorem lookupFrom_err (crawl : Nat → CrawlStep) (t : String) (p : Nat)
    (cached : List CatalogEntry) (hp : p ≤ MAX_PAGES) (hc : crawl p = .err) :
    lookupFrom crawl t p cached = (none, cached) := by
  unfold lookupFrom lookupLoop
  rw [if_pos hp, hc]

theorem lookupFrom_nonOk (crawl : Nat → CrawlStep) (t : String) (p : Nat)
    (cached : List CatalogEntry) (hp : p ≤ MAX_PAGES) (hc : crawl p = .nonOk) :
    lookupFrom crawl t p cached = (none, cached) := by
  unfold lookupFrom lookupLoop
  rw [if_pos hp, hc]

theorem lookupFrom_empty (crawl : Nat → CrawlStep) (t : String) (p : Nat)
    (cached : List CatalogEntry) (hp : p ≤ MAX_PAGES) (hc : crawl p = .ok []) :
    lookupFrom crawl t p cached = (none, cached) := by
  unfold lookupFrom lookupLoop
  rw [if_pos hp, hc]
  rfl

theorem lookupFrom_found (crawl : Nat → CrawlStep) (t : String) (p : Nat)
    (cached items : List CatalogEntry) (it : CatalogEntry)
    (hp : p ≤ MAX_PAGES) (hc : crawl p = .ok items) (hne : items ≠ [])
    (hf : items.find? (fun i => decide (i.id = t)) = some it) :
    lookupFrom crawl t p cached = (some it, cached ++ items) := by
  unfold lookupFrom lookupLoop
  rw [if_pos hp, hc]
  change (if items = [] then (none, cached)
      else match items.find? (fun i => decide (i.id = t)) with
        | some item => (some item, cached ++ items)
        | none => lookupLoop crawl t MAX_PAGES (p+1) (cached ++ items)) = _
  rw [if_neg hne, hf]

theorem lookupFrom_miss (crawl : Nat → CrawlStep) (t : String) (p : Nat)
    (cached items : List CatalogEntry)
    (hp : p ≤ MAX_PAGES) (hc : crawl p = .ok items) (hne : items ≠ [])
    (hf : items.find? (fun i => decide (i.id = t)) = none) :
    lookupFrom crawl t p cached = lookupFrom crawl t (p+1) (cached ++ items) := by
  conv_lhs => unfold lookupFrom lookupLoop
  rw [if_pos hp, hc]
  change (if items = [] then (none, cached)
      else match items.find? (fun i => decide (i.id = t)) with
        | some item => (some item, cached ++ items)
        | none => lookupLoop crawl t MAX_PAGES (p+1) (cached ++ items)) = _
  rw [if_neg hne, hf]
  unfold lookupFrom
  exact lookupLoop_fuel crawl t MAX_PAGES (MAX_PAGES + 1) (p+1) (cached ++ items)
    (by omega) (by omega)

/-- C3 (amended): the lookup-by-identity fallback crawls pages sequentially
one at a time **starting from page 1** (not from
`floor(cachedLength/pageSize) + 1`), appending each page's yield to the cached
sequence and checking the yield for the target identity after every page; it
terminates when the identity is found, when a page yields zero records, when a
page navigation errors or returns non-200, or when the `MAX_PAGES` ceiling is
reached. -/
theorem lookup_fallback_sequential (crawl : Nat → CrawlStep) (t : String)
    (p : Nat) (cached items : List CatalogEntry) (it : CatalogEntry) :
    lookupFallback crawl t cached = lookupFrom crawl t 1 cached
    ∧ (p ≤ MAX_PAGES → crawl p = .err → lookupFrom crawl t p cached = (none, cached))
    ∧ (p ≤ MAX_PAGES → crawl p = .nonOk → lookupFrom crawl t p cached = (none, cached))
    ∧ (p ≤ MAX_PAGES → crawl p = .ok [] → lookupFrom crawl t p cached = (none, cached))
    ∧ (p ≤ MAX_PAGES → crawl p = .ok items → items ≠ [] →
        items.find? (fun i => decide (i.id = t)) = some it →
        lookupFrom crawl t p cached = (some it, cached ++ items))
    ∧ (p ≤ MAX_PAGES → crawl p = .ok items → items ≠ [] →
        items.find? (fun i => decide (i.id = t)) = none →
        lookupFrom crawl t p cached = lookupFrom crawl t (p+1) (cached ++ items))
    ∧ (MAX_PAGES < p → lookupFrom crawl t p cached = (none, cached)) :=
  ⟨rfl,
   lookupFrom_err crawl t p cached,
   lookupFrom_nonOk crawl t p cached,
   lookupFrom_empty crawl t p cached,
   fun hp hc hne hf => lookupFrom_found crawl t p cached items it hp hc hne hf,
   fun hp hc hne hf => lookupFrom_miss crawl t p cached items hp hc hne hf,
   fun hp => lookupLoop_past_ceiling crawl t (MAX_PAGES + 1) p cached hp⟩

set_option maxRecDepth 1000000 in
/-- Counterexample for C3 as stated: with 500 records already cached the claim
says the fallback resumes from page `floor(500/500) + 1 = 2`; the code starts
from page 1 and so finds a target that only page 1 carries, while the
spec-worded variant (`lookupFallbackSpec`) starts at page 2, hits non-200 and
gives up. -/
theorem lookup_fallback_start_counterexample :
    (lookupFallback crawlFind "hstream:popular:t-2" (List.replicate 500 eDup)).1
      = some eTarget
    ∧ (lookupFallbackSpec crawlFind "hstream:popular:t-2" (List.replicate 500 eDup)).1
      = none
    ∧ lookupFallback crawlFind "hstream:popular:t-2" (List.replicate 500 eDup)
      ≠ lookupFallbackSpec crawlFind "hstream:popular:t-2" (List.replicate 500 eDup) := by
  refine ⟨by decide, by decide, ?_⟩
  intro hc
  have h1 : (lookupFallback crawlFind "hstream:popular:t-2"
      (List.replicate 500 eDup)).1 = some eTarget := by decide
  have h2 : (lookupFallbackSpec crawlFind "hstream:popular:t-2"
      (List.replicate 500 eDup)).1 = none := by decide
  rw [hc, h2] at h1
  exact Option.noConfusion h1

/-- Witness for the amended C3 at concrete inputs: starting at page 1, a
non-200 stops immediately under `crawlNonOk`; under `crawlFind` page 1 yields
the target, which is appended and found; and the ceiling case returns nothing. -/
theorem lookup_fallback_sequential_witness :
    lookupFallback crawlNonOk "x" [eOther] = (none, [eOther])
    ∧ lookupFrom crawlFind "hstream:popular:t-2" 1 [eOther]
        = (some eTarget, [eOther] ++ [eTarget])
    ∧ lookupFrom crawlFind "x" 21 [eOther] = (none, [eOther]) := by
  refine ⟨?_, ?_, ?_⟩
  · have h := (lookup_fallback_sequential crawlNonOk "x" 1 [eOther] [] eTarget).2.2.1
      (by decide) (by decide)
    have h0 := (lookup_fallback_sequential crawlNonOk "x" 1 [eOther] [] eTarget).1
    rw [h0, h]
  · exact (lookup_fallback_sequential crawlFind "hstream:popular:t-2" 1 [eOther]
      [eTarget] eTarget).2.2.2.2.1 (by decide) (by decide) (by decide) (by decide)
  · exact (lookup_fallback_sequential crawlFind "x" 21 [eOther] [] eTarget).2.2.2.2.2.2
      (by decide)

/-! ### Lemmas about the navigation retry loop -/

theorem navLoop_congr (nav nav' : Nat → NavOutcome) :
    ∀ (retries k : Nat) (resp : Option Nat) (d : Nat),
      (∀ i, k ≤ i → i < k + retries → nav i = nav' i) →
      navLoop nav retries k resp d = navLoop nav' retries k resp d := by
  intro retries
  induction retries with
  | zero => intro k resp d _; rfl
  | succ r ih =>
    intro k resp d h
    unfold navLoop
    rw [h k (Nat.le_refl k) (by omega)]
    cases hnk : nav' k with
    | response s =>
      change (if s = 200 then Except.ok (some s, d)
          else if 0 < r then navLoop nav r (k+1) (some s) (d + RETRY_DELAY_MS)
          else navLoop nav r (k+1) (some s) d) =
        (if s = 200 then Except.ok (some s, d)
          else if 0 < r then navLoop nav' r (k+1) (some s) (d + RETRY_DELAY_MS)
          else navLoop nav' r (k+1) (some s) d)
      by_cases hs : s = 200
      · rw [if_pos hs, if_pos hs]
      · rw [if_neg hs, if_neg hs]
        by_cases hr : 0 < r
        · rw [if_pos hr, if_pos hr]
          exact ih (k+1) (some s) (d + RETRY_DELAY_MS)
            (fun i hi1 hi2 => h i (by omega) (by omega))
        · rw [if_neg hr, if_neg hr]
          exact ih (k+1) (some s) d (fun i hi1 hi2 => h i (by omega) (by omega))
    | transportError =>
      change (if r = 0 then Except.error ()
          else navLoop nav r (k+1) resp (d + RETRY_DELAY_MS)) =
        (if r = 0 then Except.error ()
          else navLoop nav' r (k+1) resp (d + RETRY_DELAY_MS))
      by_cases hr : r = 0
      · rw [if_pos hr, if_pos hr]
      · rw [if_neg hr, if_neg hr]
        exact ih (k+1) resp (d + RETRY_DELAY_MS)
          (fun i hi1 hi2 => h i (by omega) (by omega))

theorem fetchPageResult_congr (nav nav' : Nat → NavOutcome) (ok : Bool)
    (extract : List CatalogEntry) (h : ∀ i, i < 3 → nav i = nav' i) :
    fetchPageResult ok nav extract = fetchPageResult ok nav' extract := by
  unfold fetchPageResult
  rw [navLoop_congr nav nav' 3 0 none 0 (fun i h1 h2 => h i (by omega))]

/-- C2 (amended): `fetchPage` makes at most 3 navigation attempts (a non-200
response or a transport error consumes one attempt, with a fixed
`RETRY_DELAY_MS` wait between attempts), and when the attempts are exhausted
the caller of `fetchPage` receives an **empty record list**, not an error: a
non-200 exhaustion returns `[]` directly, and a transport-error exhaustion
rethrows inside `fetchPage` only to be absorbed by its outer catch, which also
returns `[]`. -/
theorem fetchPage_retry_empty_on_exhaustion (nav nav' : Nat → NavOutcome)
    (extract : List CatalogEntry) (s : Nat) :
    ((∀ i, i < 3 → nav i = nav' i) →
      ∀ ok : Bool, fetchPageResult ok nav extract = fetchPageResult ok nav' extract)
    ∧ ((∀ i, i < 3 → nav i = .transportError) →
        navLoop nav 3 0 none 0 = .error ()
        ∧ fetchPageResult true nav extract = .ok [])
    ∧ (s ≠ 200 → (∀ i, i < 3 → nav i = .response s) →
        navLoop nav 3 0 none 0 = .ok (some s, 2 * RETRY_DELAY_MS)
        ∧ fetchPageResult true nav extract = .ok [])
    ∧ (nav 0 = .response 200 → fetchPageResult true nav extract = .ok extract) := by
  refine ⟨fun h ok => fetchPageResult_congr nav nav' ok extract h, ?_, ?_, ?_⟩
  · intro h
    have h0 := h 0 (by omega)
    have h1 := h 1 (by omega)
    have h2 := h 2 (by omega)
    have e : navLoop nav 3 0 none 0 = .error () := by
      unfold navLoop
      rw [h0]
      change navLoop nav 2 1 none (0 + RETRY_DELAY_MS) = _
      unfold navLoop
      rw [h1]
      change navLoop nav 1 2 none (0 + RETRY_DELAY_MS + RETRY_DELAY_MS) = _
      unfold navLoop
      rw [h2]
      rfl
    refine ⟨e, ?_⟩
    unfold fetchPageResult
    rw [e]
    rfl
  · intro hs h
    have h0 := h 0 (by omega)
    have h1 := h 1 (by omega)
    have h2 := h 2 (by omega)
    have e : navLoop nav 3 0 none 0 = .ok (some s, 2 * RETRY_DELAY_MS) := by
      unfold navLoop
      rw [h0]
      change (if s = 200 then Except.ok (some s, 0)
          else navLoop nav 2 1 (some s) (0 + RETRY_DELAY_MS)) = _
      rw [if_neg hs]
      unfold navLoop
      rw [h1]
      change (if s = 200 then Except.ok (some s, 0 + RETRY_DELAY_MS)
          else navLoop nav 1 2 (some s) (0 + RETRY_DELAY_MS + RETRY_DELAY_MS)) = _
      rw [if_neg hs]
      unfold navLoop
      rw [h2]
      change (if s = 200 then Except.ok (some s, 0 + RETRY_DELAY_MS + RETRY_DELAY_MS)
          else navLoop nav 0 3 (some s) (0 + RETRY_DELAY_MS + RETRY_DELAY_MS)) = _
      rw [if_neg hs]
      rfl
    refine ⟨e, ?_⟩
    unfold fetchPageResult
    rw [e]
    change (if s = 200 then Except.ok extract else Except.ok ([] : List CatalogEntry))
      = Except.ok []
    rw [if_neg hs]
  · intro h0
    unfold fetchPageResult
    unfold navLoop
    rw [h0]
    rfl

set_option maxRecDepth 100000 in
/-- Counterexample for C2 as stated: exhausting the retries (all-404 or
all-transport-error navigation) makes `fetchPage` hand its caller the empty
record list `[]`, not a propagated error. -/
theorem fetchPage_propagation_counterexample :
    fetchPageResult true nav404 [eOther] = .ok []
    ∧ navLoop nav404 3 0 none 0 = .ok (some 404, 2 * RETRY_DELAY_MS)
    ∧ navLoop navErr 3 0 none 0 = .error ()
    ∧ fetchPageResult true navErr [eOther] = .ok [] := by
  decide

set_option maxRecDepth 100000 in
/-- Witness for the amended C2 at concrete inputs: a 200-after-3-attempts
oracle behaves exactly like an all-404 one (only 3 attempts happen); both
exhaustion modes return `[]`; and an immediate 200 returns the extraction. -/
theorem fetchPage_retry_empty_on_exhaustion_witness :
    fetchPageResult true navLate200 [eOther] = .ok []
    ∧ navLoop navErr 3 0 none 0 = .error ()
    ∧ fetchPageResult true navErr [eOther] = .ok []
    ∧ navLoop nav404 3 0 none 0 = .ok (some 404, 2 * RETRY_DELAY_MS)
    ∧ fetchPageResult true nav200 [eOther] = .ok [eOther] := by
  have hcong := (fetchPage_retry_empty_on_exhaustion navLate200 nav404 [eOther] 404).1
    (fun i hi => by simp [navLate200, nav404, hi]) true
  have h404 := (fetchPage_retry_empty_on_exhaustion nav404 nav404 [eOther] 404).2.2.1
    (by decide) (fun i hi => rfl)
  have herr := (fetchPage_retry_empty_on_exhaustion navErr navErr [eOther] 0).2.1
    (fun i hi => rfl)
  have h200 := (fetchPage_retry_empty_on_exhaustion nav200 nav200 [eOther] 0).2.2.2 rfl
  exact ⟨by rw [hcong]; exact h404.2, herr.1, herr.2, h404.1, h200⟩

/-! ### The subtitle-merge claim -/

/-- C4 (amended): the in-page subtitle map is keyed by the raw per-source
token — a download button by the leading alphabetic language name of its text,
a `<track>` element by its `srclang` — so a button-sourced `English` entry and
a track-sourced `eng` entry for the same language are **not** merged: both
survive as separate entries.  Only when the two tokens coincide textually does
deduplication happen, and then the later-ingested track entry overwrites the
button-sourced one. -/
theorem subtitle_merge_keying (href btext tsrc tlang tlabel : String)
    (hhref : href ≠ "") (hsrc : tsrc ≠ "") (hlang : tlang ≠ "") :
    (buttonLang btext ≠ tlang →
      extractSubtitles [⟨some href, btext⟩] [⟨tsrc, tlang, tlabel, "subtitles"⟩] []
        = [buttonEntry href btext, trackEntry tsrc tlang tlabel])
    ∧ (buttonLang btext = tlang →
      extractSubtitles [⟨some href, btext⟩] [⟨tsrc, tlang, tlabel, "subtitles"⟩] []
        = [trackEntry tsrc tlang tlabel]) := by
  have hkey : jsOr tlang "und" = tlang := by simp [jsOr, hlang]
  have hbtn : buttonStep [] ⟨some href, btext⟩
      = [(buttonLang btext, buttonEntry href btext)] := by
    simp [buttonStep, hhref, buttonEntry, mapSet, mapGet]
  have htrk : ∀ m, trackStep m ⟨tsrc, tlang, tlabel, "subtitles"⟩
      = mapSet m tlang (trackEntry tsrc tlang tlabel) := by
    intro m
    simp [trackStep, hsrc, trackEntry, hkey]
  have hext : extractSubtitles [⟨some href, btext⟩]
      [⟨tsrc, tlang, tlabel, "subtitles"⟩] []
      = (mapSet [(buttonLang btext, buttonEntry href btext)] tlang
          (trackEntry tsrc tlang tlabel)).map (fun p => p.2) := by
    unfold extractSubtitles
    change (trackStep (buttonStep [] ⟨some href, btext⟩)
        ⟨tsrc, tlang, tlabel, "subtitles"⟩).map (fun p => p.2) = _
    rw [hbtn, htrk]
  constructor
  · intro hne
    rw [hext]
    have hnone : mapGet [(buttonLang btext, buttonEntry href btext)] tlang = none := by
      simp [mapGet, hne]
    unfold mapSet
    rw [hnone]
    rfl
  · intro heq
    rw [hext]
    have hsome : mapGet [(buttonLang btext, buttonEntry href btext)] tlang
        = some (buttonEntry href btext) := by
      simp [mapGet, heq]
    unfold mapSet
    rw [hsome]
    simp [heq]

/-- Counterexample for C4 as stated: a button-sourced `English` subtitle and a
track-sourced `eng` subtitle for the same language produce **two** entries
(keys `English` and `eng` differ), not one button-keyed entry. -/
theorem subtitle_merge_counterexample :
    extractSubtitles [⟨some "s.ass", "English"⟩] [⟨"t.vtt", "eng", "", "subtitles"⟩] []
      = [⟨"s.ass", "eng", "eng", some "English", none⟩,
         ⟨"t.vtt", "eng", "eng", none, some "vtt"⟩]
    ∧ (extractSubtitles [⟨some "s.ass", "English"⟩]
        [⟨"t.vtt", "eng", "", "subtitles"⟩] []).length = 2 := by
  decide

/-- Witness for the amended C4 at concrete inputs: distinct tokens
(`English` vs `eng`) keep both entries; identical tokens (`eng` vs `eng`) let
the track entry overwrite the button entry. -/
theorem subtitle_merge_keying_witness :
    extractSubtitles [⟨some "a.srt", "English"⟩] [⟨"b.vtt", "eng", "lbl", "subtitles"⟩] []
      = [buttonEntry "a.srt" "English", trackEntry "b.vtt" "eng" "lbl"]
    ∧ extractSubtitles [⟨some "a.srt", "eng"⟩] [⟨"b.vtt", "eng", "lbl", "subtitles"⟩] []
      = [trackEntry "b.vtt" "eng" "lbl"] :=
  ⟨(subtitle_merge_keying "a.srt" "English" "b.vtt" "eng" "lbl"
      (by decide) (by decide) (by decide)).1 (by decide),
   (subtitle_merge_keying "a.srt" "eng" "b.vtt" "eng" "lbl"
      (by decide) (by decide) (by decide)).2 (by decide)⟩

/-! ### The interception-priority claim -/

theorem mergeSourceStep_preserves (st : List (String × StreamCand))
    (src : SourceCand) (q : String) (cand : StreamCand)
    (h : mapGet st q = some cand) :
    mapGet (mergeSourceStep st src) q = some cand := by
  unfold mergeSourceStep
  by_cases hc : mapGet st src.quality = none ∧ src.quality ≠ "Unknown"
  · rw [if_pos hc]
    have hqs : q ≠ src.quality := by
      intro hq
      rw [hq, hc.1] at h
      exact Option.noConfusion h
    rw [mapGet_mapSet_other st src.quality q _ hqs]
    exact h
  · rw [if_neg hc]
    exact h

theorem mergeDomSources_preserves (streams : List (String × StreamCand))
    (sources : List SourceCand) (q : String) (cand : StreamCand)
    (h : mapGet streams q = some cand) :
    mapGet (mergeDomSources streams sources) q = some cand := by
  induction sources generalizing streams with
  | nil => exact h
  | cons src rest ih =>
    unfold mergeDomSources at ih ⊢
    rw [List.foldl_cons]
    exact ih (mergeSourceStep streams src) (mergeSourceStep_preserves streams src q cand h)

theorem keysNodup_mergeSourceStep (st : List (String × StreamCand))
    (src : SourceCand) (h : (mapKeys st).Nodup) :
    (mapKeys (mergeSourceStep st src)).Nodup := by
  unfold mergeSourceStep
  by_cases hc : mapGet st src.quality = none ∧ src.quality ≠ "Unknown"
  · rw [if_pos hc]
    exact mapKeys_nodup_mapSet st src.quality _ h
  · rw [if_neg hc]
    exact h

theorem keysNodup_mergeDomSources (streams : List (String × StreamCand))
    (sources : List SourceCand) (h : (mapKeys streams).Nodup) :
    (mapKeys (mergeDomSources streams sources)).Nodup := by
  induction sources generalizing streams with
  | nil => exact h
  | cons src rest ih =>
    unfold mergeDomSources at ih ⊢
    rw [List.foldl_cons]
    exact ih (mergeSourceStep streams src) (keysNodup_mergeSourceStep streams src h)

theorem keysNodup_interceptRequest (st : List (String × StreamCand)) (u : String)
    (h : (mapKeys st).Nodup) : (mapKeys (interceptRequest st u)).Nodup := by
  unfold interceptRequest
  by_cases hm : isMediaUrl u = true
  · rw [if_pos hm]
    by_cases hq : classifyQuality u = "Unknown"
    · rw [if_pos hq]
      exact h
    · rw [if_neg hq]
      exact mapKeys_nodup_mapSet st (classifyQuality u) _ h
  · rw [if_neg hm]
    exact h

theorem keysNodup_interceptAll_from (urls : List String) :
    ∀ st : List (String × StreamCand), (mapKeys st).Nodup →
      (mapKeys (urls.foldl interceptRequest st)).Nodup := by
  induction urls with
  | nil => intro st h; exact h
  | cons u rest ih =>
    intro st h
    rw [List.foldl_cons]
    exact ih (interceptRequest st u) (keysNodup_interceptRequest st u h)

/-- C6: when a quality label was captured from network interception, a
DOM-extracted source for the same label is never merged over it — the
interception-sourced candidate survives the merge unchanged, the merged map
holds exactly one entry for that label, and intercepted maps always have
duplicate-free keys. -/
theorem interception_priority (streams : List (String × StreamCand))
    (sources : List SourceCand) (q : String) (cand : StreamCand)
    (urls : List String) :
    (mapGet streams q = some cand →
      mapGet (mergeDomSources streams sources) q = some cand)
    ∧ (mapGet streams q = some cand → (mapKeys streams).Nodup →
      ((mergeDomSources streams sources).filter
        (fun p => decide (p.1 = q))).length = 1)
    ∧ (mapKeys (interceptAll urls)).Nodup :=
  ⟨fun h => mergeDomSources_preserves streams sources q cand h,
   fun h hn =>
     mapGet_some_filter_one (mergeDomSources streams sources) q cand
       (keysNodup_mergeDomSources streams sources hn)
       (mergeDomSources_preserves streams sources q cand h),
   keysNodup_interceptAll_from urls [] List.Pairwise.nil⟩

/-- Witness for C6 at concrete inputs: an intercepted 720p stream and an
inline-DOM 720p source leave exactly one 720p entry, the intercepted one. -/
theorem interception_priority_witness :
    mapGet (mergeDomSources (interceptAll ["https://h/x720.mp4"])
        [⟨"https://h/y.mp4", "720p"⟩]) "720p"
      = some ⟨"https://h/x720.mp4", "720p", 720⟩
    ∧ ((mergeDomSources (interceptAll ["https://h/x720.mp4"])
        [⟨"https://h/y.mp4", "720p"⟩]).filter
          (fun p => decide (p.1 = "720p"))).length = 1 :=
  ⟨(interception_priority (interceptAll ["https://h/x720.mp4"])
      [⟨"https://h/y.mp4", "720p"⟩] "720p" ⟨"https://h/x720.mp4", "720p", 720⟩ []).1
      (by decide),
   (interception_priority (interceptAll ["https://h/x720.mp4"])
      [⟨"https://h/y.mp4", "720p"⟩] "720p" ⟨"https://h/x720.mp4", "720p", 720⟩ []).2.1
      (by decide) (by decide)⟩

/-! ### The quality-sorting and display-title claim -/

theorem sortedCandidates_pairwise (streams : List (String × StreamCand)) :
    List.Pairwise qualityGE (sortedCandidates streams) := by
  unfold sortedCandidates
  exact List.sorted_insertionSort qualityGE
    ((streams.map (fun p => p.2)).filter (fun s => urlIsHttps s.url))

/-- C7 (amended): the resolved stream list is sorted by **non-increasing**
numeric quality rank (2160 > 1080 > 720 > 480 > 360; two distinct labels that
derive the same rank tie and keep insertion order, so the order is not
strict in general); a label from which no recognized number can be derived
ranks last with rank 0; every stream's display title goes through the fixed
quality table (`1080p ↦ "Full HD"`) with the raw label as fallback; and the
example labels {360p, 1080p, 720p} resolve in the order 1080p, 720p, 360p. -/
theorem stream_sorting_display (streams : List (String × StreamCand))
    (q metaTitle : String) (subs : List SubtitleEntry) :
    List.Pairwise qualityGE (sortedCandidates streams)
    ∧ (composeStreams streams metaTitle subs).map (fun d => d.title)
        = (sortedCandidates streams).map (fun s => displayTitle s.quality)
    ∧ (qualityDesc q = none → displayTitle q = q)
    ∧ (jsIncludes q "2160" = false → jsIncludes q "1080" = false →
        jsIncludes q "720" = false → jsIncludes q "480" = false →
        jsIncludes q "360" = false → domQualityNum q = 0)
    ∧ displayTitle "1080p" = "Full HD"
    ∧ (sortedCandidates (interceptAll
        ["https://h/v360.mp4", "https://h/v1080.mp4", "https://h/v720.mp4"])).map
          (fun st => st.quality) = ["1080p", "720p", "360p"]
    ∧ (composeStreams (interceptAll
        ["https://h/v360.mp4", "https://h/v1080.mp4", "https://h/v720.mp4"])
          metaTitle []).map (fun d => d.title) = ["Full HD", "HD", "Low Quality"] := by
  have hmap : ∀ (ss : List (String × StreamCand)) (mt : String)
      (sb : List SubtitleEntry),
      (composeStreams ss mt sb).map (fun d => d.title)
        = (sortedCandidates ss).map (fun st => displayTitle st.quality) := by
    intro ss mt sb
    unfold composeStreams
    rw [List.map_map]
    rfl
  refine ⟨sortedCandidates_pairwise streams, hmap streams metaTitle subs,
    ?_, ?_, by decide, by decide, ?_⟩
  · intro h
    unfold displayTitle
    rw [h]
    rfl
  · intro h1 h2 h3 h4 h5
    simp [domQualityNum, h1, h2, h3, h4, h5]
  · rw [hmap]
    decide

/-- Counterexample for C7 as stated: an intercepted `720p` stream plus an
inline-DOM source labelled `hd720` (distinct label, same derived rank 720)
produce the rank sequence `[720, 720]`, which is not strictly descending. -/
theorem stream_sorting_strict_counterexample :
    ((sortedCandidates (mergeDomSources (interceptAll ["https://c/x720.mp4"])
        [⟨"https://c/y.mp4", "hd720"⟩])).map (fun st => st.qualityNum)) = [720, 720]
    ∧ specStrictlyDescending
        ((sortedCandidates (mergeDomSources (interceptAll ["https://c/x720.mp4"])
          [⟨"https://c/y.mp4", "hd720"⟩])).map (fun st => st.qualityNum)) = false := by
  decide

/-- Witness for the amended C7 at concrete inputs. -/
theorem stream_sorting_display_witness :
    List.Pairwise qualityGE (sortedCandidates (interceptAll
      ["https://h/v360.mp4", "https://h/v1080.mp4", "https://h/v720.mp4"]))
    ∧ displayTitle "999x" = "999x"
    ∧ domQualityNum "weird" = 0
    ∧ (composeStreams (interceptAll
        ["https://h/v360.mp4", "https://h/v1080.mp4", "https://h/v720.mp4"])
          "T" []).map (fun d => d.title) = ["Full HD", "HD", "Low Quality"] :=
  ⟨(stream_sorting_display (interceptAll
      ["https://h/v360.mp4", "https://h/v1080.mp4", "https://h/v720.mp4"])
      "999x" "T" []).1,
   (stream_sorting_display [] "999x" "T" []).2.2.1 (by decide),
   (stream_sorting_display [] "weird" "T" []).2.2.2.1
     (by decide) (by decide) (by decide) (by decide) (by decide),
   (stream_sorting_display [] "x" "T" []).2.2.2.2.2.2⟩

/-! ### Cache lemmas and the expiring-cache claim -/

theorem cache_get_none_mapGet {α : Type} (c : Cache α) (k : String) (now : Int)
    (h : (Cache.get c k now).1 = none) :
    mapGet (Cache.get c k now).2.data k = none := by
  cases hm : mapGet c.data k with
  | none =>
    simp only [Cache.get, hm]
  | some it =>
    simp only [Cache.get, hm] at h ⊢
    by_cases hexp : it.expires < now
    · rw [if_pos hexp]
      exact mapGet_mapDelete_self c.data k
    · rw [if_neg hexp] at h
      simp at h

theorem cache_get_ttl {α : Type} (c : Cache α) (k : String) (now : Int) :
    (Cache.get c k now).2.ttl = c.ttl := by
  cases hm : mapGet c.data k with
  | none => simp only [Cache.get, hm]
  | some it =>
    simp only [Cache.get, hm]
    by_cases hexp : it.expires < now
    · rw [if_pos hexp]
    · rw [if_neg hexp]

/-- C9 (amended): `get` on an expired entry deletes it and returns absent;
`get` on an absent key returns absent; `get` on a live entry returns it
without touching the table (eviction is lazy, inside `get` only); `set`
overwrites wholesale with expiry `now + ttl` where the TTL is the namespace
default when no override — **or a zero override** — is given, and the
override itself when it is nonzero; `set` never touches other keys. -/
theorem cache_contract {α : Type} (c : Cache α) (k k' : String) (v : α)
    (it : CacheEntry α) (now t : Int) :
    (mapGet c.data k = none → Cache.get c k now = (none, c))
    ∧ (mapGet c.data k = some it → it.expires < now →
        Cache.get c k now = (none, { c with data := mapDelete c.data k })
        ∧ mapGet (mapDelete c.data k) k = none)
    ∧ (mapGet c.data k = some it → ¬ it.expires < now →
        Cache.get c k now = (some it.value, c))
    ∧ mapGet (Cache.set c k v none now).data k = some ⟨v, now + c.ttl⟩
    ∧ (t ≠ 0 → mapGet (Cache.set c k v (some t) now).data k = some ⟨v, now + t⟩)
    ∧ mapGet (Cache.set c k v (some 0) now).data k = some ⟨v, now + c.ttl⟩
    ∧ (k' ≠ k → mapGet (Cache.set c k v (some t) now).data k'
        = mapGet c.data k') := by
  refine ⟨?_, ?_, ?_, ?_, ?_, ?_, ?_⟩
  · intro h
    unfold Cache.get
    rw [h]
  · intro h hexp
    constructor
    · simp only [Cache.get, h]
      rw [if_pos hexp]
    · exact mapGet_mapDelete_self c.data k
  · intro h hexp
    simp only [Cache.get, h]
    rw [if_neg hexp]
  · exact mapGet_mapSet_self c.data k ⟨v, now + c.ttl⟩
  · intro ht
    unfold Cache.set
    change mapGet (mapSet c.data k ⟨v, now + (if t = 0 then c.ttl else t)⟩) k = _
    rw [if_neg ht]
    exact mapGet_mapSet_self c.data k ⟨v, now + t⟩
  · exact mapGet_mapSet_self c.data k ⟨v, now + c.ttl⟩
  · intro hne
    unfold Cache.set
    exact mapGet_mapSet_other c.data k k' _ hne

/-- Counterexample for C9 as stated: supplying the override TTL `0` to `set`
does **not** produce an expiry computed from the override — the JavaScript
`customTtl || this.ttl` treats `0` as falsy and silently uses the default
TTL instead (expiry `600 = 100 + 500`, not `100 + 0`). -/
theorem cache_ttl_counterexample :
    mapGet ((Cache.set (⟨[], 500⟩ : Cache Nat) "k" 7 (some 0) 100).data) "k"
      = some ⟨7, 600⟩
    ∧ (600 : Int) ≠ 100 + 0 := by
  decide

/-- Witness for the amended C9 at concrete inputs. -/
theorem cache_contract_witness :
    Cache.get (⟨[("k", ⟨7, 50⟩)], 500⟩ : Cache Nat) "nope" 100
      = (none, ⟨[("k", ⟨7, 50⟩)], 500⟩)
    ∧ Cache.get (⟨[("k", ⟨7, 50⟩)], 500⟩ : Cache Nat) "k" 100
      = (none, ⟨mapDelete [("k", ⟨7, 50⟩)] "k", 500⟩)
    ∧ mapGet (mapDelete ([("k", (⟨7, 50⟩ : CacheEntry Nat))]) "k") "k" = none
    ∧ Cache.get (⟨[("k", ⟨7, 50⟩)], 500⟩ : Cache Nat) "k" 30 = (some 7, ⟨[("k", ⟨7, 50⟩)], 500⟩)
    ∧ mapGet ((Cache.set (⟨[], 500⟩ : Cache Nat) "x" 9 none 100).data) "x"
      = some ⟨9, (100 : Int) + 500⟩
    ∧ mapGet ((Cache.set (⟨[], 500⟩ : Cache Nat) "x" 9 (some 42) 100).data) "x"
      = some ⟨9, (100 : Int) + 42⟩
    ∧ mapGet ((Cache.set (⟨[("k", ⟨7, 50⟩)], 500⟩ : Cache Nat) "x" 9 (some 42) 100).data) "k"
      = mapGet ([("k", (⟨7, 50⟩ : CacheEntry Nat))]) "k" := by
  refine ⟨?_, ?_, ?_, ?_, ?_, ?_, ?_⟩
  · exact (cache_contract (⟨[("k", ⟨7, 50⟩)], 500⟩ : Cache Nat) "nope" "a" 7 ⟨7, 50⟩ 100 1).1
      (by decide)
  · exact ((cache_contract (⟨[("k", ⟨7, 50⟩)], 500⟩ : Cache Nat) "k" "a" 7 ⟨7, 50⟩ 100 1).2.1
      (by decide) (by decide)).1
  · exact ((cache_contract (⟨[("k", ⟨7, 50⟩)], 500⟩ : Cache Nat) "k" "a" 7 ⟨7, 50⟩ 100 1).2.1
      (by decide) (by decide)).2
  · exact (cache_contract (⟨[("k", ⟨7, 50⟩)], 500⟩ : Cache Nat) "k" "a" 7 ⟨7, 50⟩ 30 1).2.2.1
      (by decide) (by decide)
  · exact (cache_contract (⟨[], 500⟩ : Cache Nat) "x" "a" 9 ⟨9, 0⟩ 100 1).2.2.2.1
  · exact (cache_contract (⟨[], 500⟩ : Cache Nat) "x" "a" 9 ⟨9, 0⟩ 100 42).2.2.2.2.1
      (by decide)
  · exact (cache_contract (⟨[("k", ⟨7, 50⟩)], 500⟩ : Cache Nat) "x" "k" 9 ⟨9, 0⟩ 100 42).2.2.2.2.2.2
      (by decide)

/-! ### Lemmas about the resolver control flow -/

theorem resolveAfterLaunch_error (env : ResolveEnv)
    (h : env.navOk = false ∨ env.dom = .error () ∨ env.meta = .error ()) :
    resolveAfterLaunch env = .error () := by
  unfold resolveAfterLaunch
  rcases h with h | h | h
  · rw [h]
    rfl
  · by_cases hn : env.navOk = true
    · rw [if_pos hn, h]
    · rw [if_neg hn]
  · by_cases hn : env.navOk = true
    · rw [if_pos hn]
      cases hd : env.dom with
      | error e => rfl
      | ok d =>
        rw [h]
    · rw [if_neg hn]

theorem fetchVideoDetails_miss (env : ResolveEnv) (url : String)
    (cache : Cache Result) (now : Int)
    (hmiss : (Cache.get cache ("details-" ++ fixUrl url) now).1 = none) :
    fetchVideoDetails env url cache now =
      (if env.launchOk then
        match resolveAfterLaunch env with
        | .error _ =>
          { result := degradedResult,
            cacheAfter := (Cache.get cache ("details-" ++ fixUrl url) now).2,
            sessionsOpened := 1, sessionsClosed := 1 }
        | .ok r =>
          { result := r,
            cacheAfter := Cache.set (Cache.get cache ("details-" ++ fixUrl url) now).2
              ("details-" ++ fixUrl url) r none now,
            sessionsOpened := 1, sessionsClosed := 1 }
      else
        { result := degradedResult,
          cacheAfter := (Cache.get cache ("details-" ++ fixUrl url) now).2,
          sessionsOpened := 0, sessionsClosed := 0 }) := by
  unfold fetchVideoDetails
  rcases hget : Cache.get cache ("details-" ++ fixUrl url) now with ⟨o, c1⟩
  rw [hget] at hmiss
  simp only at hmiss
  subst hmiss
  rfl

/-- C8: on a stream-cache miss, any failure during resolution — browser
launch, navigation / selector wait, either in-page evaluation — makes
`fetchVideoDetails` return the degraded `{ title: "Unknown", streams: [] }`
result instead of propagating the error, and every rendering session it
opened has been closed by the time it returns. -/
theorem resolve_degraded_on_error (env : ResolveEnv) (url : String)
    (cache : Cache Result) (now : Int)
    (hmiss : (Cache.get cache ("details-" ++ fixUrl url) now).1 = none)
    (hfail : env.launchOk = false ∨ env.navOk = false ∨
      env.dom = .error () ∨ env.meta = .error ()) :
    (fetchVideoDetails env url cache now).result = degradedResult
    ∧ (fetchVideoDetails env url cache now).sessionsClosed
        = (fetchVideoDetails env url cache now).sessionsOpened := by
  rw [fetchVideoDetails_miss env url cache now hmiss]
  by_cases hl : env.launchOk = true
  · have herr : resolveAfterLaunch env = .error () := by
      apply resolveAfterLaunch_error
      rcases hfail with h | h | h | h
      · rw [hl] at h
        exact Bool.noConfusion h
      · exact Or.inl h
      · exact Or.inr (Or.inl h)
      · exact Or.inr (Or.inr h)
    rw [if_pos hl, herr]
    exact ⟨rfl, rfl⟩
  · rw [if_neg hl]
    exact ⟨rfl, rfl⟩

/-- Witness for C8 at concrete inputs: a launch failure and a navigation
failure both return the degraded result with sessions balanced. -/
theorem resolve_degraded_on_error_witness :
    (fetchVideoDetails envLaunchFail "https://u" emptyStreamCache 0).result = degradedResult
    ∧ (fetchVideoDetails envNavFail "https://u" emptyStreamCache 0).result = degradedResult
    ∧ (fetchVideoDetails envNavFail "https://u" emptyStreamCache 0).sessionsClosed
        = (fetchVideoDetails envNavFail "https://u" emptyStreamCache 0).sessionsOpened :=
  ⟨(resolve_degraded_on_error envLaunchFail "https://u" emptyStreamCache 0
      (by decide) (Or.inl (by decide))).1,
   (resolve_degraded_on_error envNavFail "https://u" emptyStreamCache 0
      (by decide) (Or.inr (Or.inl (by decide)))).1,
   (resolve_degraded_on_error envNavFail "https://u" emptyStreamCache 0
      (by decide) (Or.inr (Or.inl (by decide)))).2⟩

/-- C10: when resolution fails after a cache miss, the degraded result is not
written to the stream cache — the cache is exactly what the initial `get`
left, with no entry under the detail-URL key — so a later call for the same
URL takes the miss path again, performs a fresh resolution (opening a
session), and only that successfully composed result is cached (with the
cache's default TTL). -/
theorem degraded_not_cached (env env2 : ResolveEnv) (url : String)
    (cache : Cache Result) (now now2 : Int) (r2 : Result)
    (hmiss : (Cache.get cache ("details-" ++ fixUrl url) now).1 = none)
    (hfail : env.launchOk = false ∨ env.navOk = false ∨
      env.dom = .error () ∨ env.meta = .error ())
    (hl2 : env2.launchOk = true)
    (hok : resolveAfterLaunch env2 = .ok r2) :
    (fetchVideoDetails env url cache now).cacheAfter
      = (Cache.get cache ("details-" ++ fixUrl url) now).2
    ∧ mapGet (fetchVideoDetails env url cache now).cacheAfter.data
        ("details-" ++ fixUrl url) = none
    ∧ (fetchVideoDetails env2 url (fetchVideoDetails env url cache now).cacheAfter
        now2).result = r2
    ∧ (fetchVideoDetails env2 url (fetchVideoDetails env url cache now).cacheAfter
        now2).sessionsOpened = 1
    ∧ mapGet (fetchVideoDetails env2 url
        (fetchVideoDetails env url cache now).cacheAfter now2).cacheAfter.data
        ("details-" ++ fixUrl url) = some ⟨r2, now2 + cache.ttl⟩ := by
  have h1 : (fetchVideoDetails env url cache now).cacheAfter
      = (Cache.get cache ("details-" ++ fixUrl url) now).2 := by
    rw [fetchVideoDetails_miss env url cache now hmiss]
    by_cases hl : env.launchOk = true
    · have herr : resolveAfterLaunch env = .error () := by
        apply resolveAfterLaunch_error
        rcases hfail with h | h | h | h
        · rw [hl] at h
          exact Bool.noConfusion h
        · exact Or.inl h
        · exact Or.inr (Or.inl h)
        · exact Or.inr (Or.inr h)
      rw [if_pos hl, herr]
    · rw [if_neg hl]
  have h2 : mapGet (fetchVideoDetails env url cache now).cacheAfter.data
      ("details-" ++ fixUrl url) = none := by
    rw [h1]
    exact cache_get_none_mapGet cache ("details-" ++ fixUrl url) now hmiss
  have h3 : Cache.get (fetchVideoDetails env url cache now).cacheAfter
      ("details-" ++ fixUrl url) now2
      = (none, (fetchVideoDetails env url cache now).cacheAfter) := by
    unfold Cache.get
    rw [h2]
  have h4 := fetchVideoDetails_miss env2 url
    (fetchVideoDetails env url cache now).cacheAfter now2 (by rw [h3])
  rw [h4, if_pos hl2, hok]
  refine ⟨h1, h2, rfl, rfl, ?_⟩
  have httl : (fetchVideoDetails env url cache now).cacheAfter.ttl = cache.ttl := by
    rw [h1]
    exact cache_get_ttl cache ("details-" ++ fixUrl url) now
  have hgoal : mapGet ((Cache.set (fetchVideoDetails env url cache now).cacheAfter
      ("details-" ++ fixUrl url) r2 none now2).data) ("details-" ++ fixUrl url)
      = some ⟨r2, now2 + cache.ttl⟩ := by
    unfold Cache.set
    change mapGet (mapSet (fetchVideoDetails env url cache now).cacheAfter.data
      ("details-" ++ fixUrl url)
      ⟨r2, now2 + (fetchVideoDetails env url cache now).cacheAfter.ttl⟩)
      ("details-" ++ fixUrl url) = _
    rw [httl]
    exact mapGet_mapSet_self _ _ _
  rw [h3]
  exact hgoal

/-- Witness for C10 at concrete inputs: a failed call leaves the empty stream
cache empty; the follow-up call with a succeeding environment resolves
freshly (one session) and caches its result. -/
theorem degraded_not_cached_witness :
    (fetchVideoDetails envLaunchFail "https://u" emptyStreamCache 0).cacheAfter
      = (Cache.get emptyStreamCache ("details-" ++ fixUrl "https://u") 0).2
    ∧ mapGet (fetchVideoDetails envLaunchFail "https://u" emptyStreamCache 0).cacheAfter.data
        ("details-" ++ fixUrl "https://u") = none
    ∧ (fetchVideoDetails envOk "https://u"
        (fetchVideoDetails envLaunchFail "https://u" emptyStreamCache 0).cacheAfter
        5).result = envOkResult
    ∧ (fetchVideoDetails envOk "https://u"
        (fetchVideoDetails envLaunchFail "https://u" emptyStreamCache 0).cacheAfter
        5).sessionsOpened = 1
    ∧ mapGet (fetchVideoDetails envOk "https://u"
        (fetchVideoDetails envLaunchFail "https://u" emptyStreamCache 0).cacheAfter
        5).cacheAfter.data ("details-" ++ fixUrl "https://u")
      = some ⟨envOkResult, (5 : Int) + emptyStreamCache.ttl⟩ :=
  degraded_not_cached envLaunchFail envOk "https://u" emptyStreamCache 0 5
    envOkResult (by decide) (Or.inl (by decide)) (by decide) (by decide)

end HStream
